import Mathlib

/-!
Shallow embedding of the call-graph construction engine of the
`nestjs-dashboard-extension` repository, together with theorems checking the
frozen claims of its specification against the code.

The embedding translates, from the TypeScript source:

* the data model (`CallGraphNode`, `CallGraphEdge`, `CallGraph`,
  `CallGraphConfig`, `EndpointInfo`) from `models/CallGraphModels.ts` and
  `parser/NestParser.ts`;
* the declaration analyzer and symbol resolver (`DependencyTracer`);
* the graph builder (`CallGraphParser.buildCallGraph` and its trace helpers);
* the demo-data enrichment (`CallGraphProvider.enhanceCallGraphWithDemoData`,
  `showEnhancedCallGraph`);
* the graph algorithms (`GraphTraversal.findReachableNodes`,
  `GraphTraversal.detectCircularDependencies`);
* the complexity metrics (`VisualizationHelpers.calculateComplexity`).

Modelling conventions:

* The ts-morph AST is modelled at exactly the level the analyzer consumes it:
  classes with constructor parameter declarations (name, type annotation
  text, decorators), methods with the callee shapes of their call
  expressions, and properties with decorators.
* The project is the set of source files loaded from the workspace search
  roots; the resolver's `addSourceFilesAtPaths` widening is modelled as that
  already-loaded universe (the parser's constructor loads `rootFolder/**/*.ts`
  up front, so widening adds nothing new).
* JavaScript numbers used for counting are modelled as `Nat`/`Int`; the two
  metric ratios are modelled over `Rat` (the formulas involved are exact).
* Mutable instance state (`nodeCache`, `processedFiles`) is threaded as an
  explicit `ParserState`.
* All functions are total; the TypeScript code's "never throws" contracts
  correspond to totality of the embedding.
* Unbounded JS recursions that terminate via a growing visited set are given
  an explicit fuel parameter chosen large enough that the fuel never runs
  out on the recursions the code actually performs.
-/

namespace NestCG

/-! ### String utilities mirroring the JavaScript operations used -/

/-- Does the character list `hay` start with the character list `needle`? -/
def listStartsWith : List Char → List Char → Bool
  | _, [] => true
  | [], _ :: _ => false
  | a :: as, b :: bs => a = b && listStartsWith as bs

/-- Does `hay` contain `needle` as a contiguous sublist?
    Mirrors JavaScript `String.prototype.includes`. -/
def listContainsSub : List Char → List Char → Bool
  | [], needle => needle.isEmpty
  | a :: t, needle => listStartsWith (a :: t) needle || listContainsSub t needle

/-- JavaScript `hay.includes(needle)`. -/
def strContains (hay needle : String) : Bool :=
  listContainsSub hay.data needle.data

/-- JavaScript `s.toLowerCase()` (ASCII, which covers the identifiers and
    file names involved). Defined over the character list so the kernel can
    evaluate it. -/
def strToLower (s : String) : String :=
  String.mk (s.data.map Char.toLower)

/-- JavaScript `s.toUpperCase()` (ASCII). -/
def strToUpper (s : String) : String :=
  String.mk (s.data.map Char.toUpper)

/-- JavaScript `s.startsWith(pre)`. -/
def strStartsWith (s pre : String) : Bool :=
  listStartsWith s.data pre.data

/-- JavaScript `s.endsWith(suffix)`. -/
def strEndsWith (s suffix : String) : Bool :=
  listStartsWith s.data.reverse suffix.data.reverse

/-- Drop the first `n` characters of `s`. -/
def strDrop (s : String) (n : Nat) : String :=
  String.mk (s.data.drop n)

/-- Drop the last `n` characters of `s`. -/
def strDropRight (s : String) (n : Nat) : String :=
  String.mk (s.data.take (s.data.length - n))

/-- Split a character list at every occurrence of `c`. -/
def splitOnChar (c : Char) : List Char → List (List Char)
  | [] => [[]]
  | x :: xs =>
    match splitOnChar c xs with
    | [] => if x = c then [[], []] else [[x]]
    | h :: t => if x = c then [] :: h :: t else (x :: h) :: t

/-- Node.js `path.basename`: the part of the path after the last slash. -/
def basename (p : String) : String :=
  String.mk ((splitOnChar '/' p.data).reverse.headD p.data)

/-- JavaScript `s.replace(suffix-anchored-regex, "")`: strip `suffix` from the
    end of `s` when present (used for `/Service$/`, `/Entity$/`, …). -/
def stripEndSuffix (s suffix : String) : String :=
  if strEndsWith s suffix then strDropRight s suffix.data.length else s

/-- JavaScript `s.replace(pat, "")` with a plain string pattern: remove the
    first occurrence of `pat` from `s` (used for `.replace("Controller", "")`). -/
def removeFirstAux (pat : List Char) : List Char → List Char
  | [] => []
  | c :: cs =>
    if listStartsWith (c :: cs) pat then (c :: cs).drop pat.length
    else c :: removeFirstAux pat cs

/-- JavaScript `s.replace(pat, "")` for a plain string pattern. -/
def removeFirst (s pat : String) : String :=
  String.mk (removeFirstAux pat.data s.data)

/-- JavaScript `s.replace(/['"]/g, "")`: remove every quote character. -/
def stripQuotes (s : String) : String :=
  String.mk (s.data.filter (fun c => !(c = '"' || c = Char.ofNat 39)))

/-- Truthiness of an optional string in JavaScript: `undefined` and `""` are
    falsy. Used to model `if (endpoint.inputDto)` and similar tests. -/
def strTruthy : Option String → Option String
  | some s => if s = "" then none else some s
  | none => none

/-! ### Data model (`models/CallGraphModels.ts`, `parser/NestParser.ts`) -/

/-- `CallGraphNode["type"]` — the closed union of node kinds. -/
inductive NodeType where
  | endpoint | service | repository | entity | dto | guard | pipe | interceptor
deriving DecidableEq, BEq, Repr

/-- `CallGraphEdge["type"]` — the closed union of edge kinds. -/
inductive EdgeType where
  | calls | injects | uses | returns | guards | pipes | intercepts
deriving DecidableEq, BEq, Repr

/-- The string rendering of an edge type used by the template-literal dedup
    key in `removeDuplicateEdges`. -/
def edgeTypeToString : EdgeType → String
  | .calls => "calls"
  | .injects => "injects"
  | .uses => "uses"
  | .returns => "returns"
  | .guards => "guards"
  | .pipes => "pipes"
  | .intercepts => "intercepts"

/-- Node `metadata` bag. All fields are optional in the source. -/
structure NodeMetadata where
  httpMethod : Option String := none
  route : Option String := none
  decorators : List String := []
  className : Option String := none
  methodName : Option String := none
  isDemoData : Option Bool := none
  injectionToken : Option String := none
  method : Option String := none
deriving DecidableEq, Repr

/-- Edge `metadata` bag. -/
structure EdgeMetadata where
  method : Option String := none
  parameter : Option String := none
  injectionToken : Option String := none
  isDemoData : Option Bool := none
deriving DecidableEq, Repr

/-- `CallGraphNode`. -/
structure CallGraphNode where
  id : String
  name : String
  type : NodeType
  filePath : String
  lineNumber : Nat
  metadata : NodeMetadata
deriving DecidableEq, Repr

/-- `CallGraphEdge`. The source fields `from`/`to` are named `fromId`/`toId`
    here because `from` is a reserved word in Lean. -/
structure CallGraphEdge where
  fromId : String
  toId : String
  type : EdgeType
  metadata : EdgeMetadata
deriving DecidableEq, Repr

/-- `CallGraph`. -/
structure CallGraph where
  nodes : List CallGraphNode
  edges : List CallGraphEdge
  rootNodes : List String
deriving DecidableEq, Repr

/-- `CallGraphConfig` (the presentation-only `visualizer` field is omitted —
    it never influences graph construction). -/
structure CallGraphConfig where
  maxDepth : Nat
  includeEntities : Bool
  includeGuards : Bool
  includePipes : Bool
  includeInterceptors : Bool
deriving DecidableEq, Repr

/-- `EndpointInfo` (the fields the graph builder and the enrichment read;
    optional list fields are folded to `[]`, which is behaviourally identical
    because the consuming loops treat `undefined` exactly like an empty list). -/
structure EndpointInfo where
  method : String
  path : String
  controller : String
  handlerName : String
  filePath : String
  lineNumber : Nat
  inputDto : Option String := none
  outputDto : Option String := none
  guards : List String := []
  pipes : List String := []
  interceptors : List String := []
  isPublic : Bool := false
deriving DecidableEq, Repr

/-! ### The analyzed program representation (ts-morph, at the consumed level) -/

/-- A decorator occurrence: name and raw argument texts. -/
structure DecoratorDecl where
  name : String
  args : List String
deriving DecidableEq, Repr

/-- A constructor parameter: name, type-annotation text (none when the
    parameter has no type annotation), decorators. -/
structure ParamDecl where
  name : String
  typeName : Option String
  decorators : List DecoratorDecl
deriving DecidableEq, Repr

/-- The callee shape of one call expression, as distinguished by
    `DependencyTracer.analyzeMethodCall`: `this.m(...)`, `x.m(...)` with a
    bare identifier receiver, or any other shape (skipped). -/
inductive CalleeShape where
  | propAccessThis (methodName : String) (line : Nat)
  | propAccessIdent (obj : String) (methodName : String) (line : Nat)
  | otherShape
deriving DecidableEq, Repr

/-- A method declaration: name and the call expressions in its body. -/
structure MethodDecl where
  name : String
  callExprs : List CalleeShape
deriving DecidableEq, Repr

/-- A property declaration: name and decorators. -/
structure PropertyDecl where
  name : String
  decorators : List DecoratorDecl
deriving DecidableEq, Repr

/-- A class declaration. `getName()` may be `undefined` for anonymous
    classes, hence `Option String`. `ctors` is the list of constructor
    declarations, each with its parameter list. -/
structure ClassDecl where
  name : Option String
  ctors : List (List ParamDecl)
  methods : List MethodDecl
  properties : List PropertyDecl
deriving DecidableEq, Repr

/-- A source file: path and class declarations. -/
structure SourceFile where
  filePath : String
  classes : List ClassDecl
deriving DecidableEq, Repr

/-- The ts-morph project: the source files loaded from the search roots. -/
structure Project where
  files : List SourceFile
deriving DecidableEq, Repr

/-- `project.getSourceFile(filePath)`. -/
def getSourceFile (p : Project) (filePath : String) : Option SourceFile :=
  p.files.find? (fun f => f.filePath = filePath)

/-! ### Declaration analyzer (`parser/DependencyTracer.ts`) -/

/-- `DependencyInfo`. -/
structure DependencyInfo where
  serviceName : String
  serviceType : String
  injectionToken : Option String := none
  parameterName : String
deriving DecidableEq, Repr

/-- `MethodCallInfo` (the unused optional `targetType` field is omitted). -/
structure MethodCallInfo where
  methodName : String
  targetObject : String
  lineNumber : Nat
deriving DecidableEq, Repr

/-- `DependencyTracer.inferServiceType`. -/
def inferServiceType (typeName : String) : String :=
  if strEndsWith typeName "Service" then "service"
  else if strEndsWith typeName "Repository" || strStartsWith typeName "Repository<" then
    "repository"
  else if strEndsWith typeName "Guard" then "guard"
  else if strEndsWith typeName "Pipe" then "pipe"
  else if strEndsWith typeName "Interceptor" then "interceptor"
  else "service"

/-- `DependencyTracer.analyzeDependencyParameter`: decorator-based injection
    (`@Inject(token)` with at least one argument) first, then suffix-based
    constructor injection for type names ending in `Service`/`Repository`. -/
def analyzeDependencyParameter (param : ParamDecl) : Option DependencyInfo :=
  match param.typeName with
  | none => none
  | some typeName =>
    match param.decorators.findSome? (fun dec =>
        if dec.name = "Inject" then
          match dec.args with
          | [] => none
          | a :: _ =>
            some { serviceName := typeName,
                   serviceType := inferServiceType typeName,
                   injectionToken := some (stripQuotes a),
                   parameterName := param.name }
        else none) with
    | some d => some d
    | none =>
      if strEndsWith typeName "Service" || strEndsWith typeName "Repository" then
        some { serviceName := typeName,
               serviceType := inferServiceType typeName,
               parameterName := param.name }
      else none

/-- `DependencyTracer.extractConstructorDependencies`. -/
def extractConstructorDependencies (cls : ClassDecl) : List DependencyInfo :=
  cls.ctors.flatMap (fun params => params.filterMap analyzeDependencyParameter)

/-- `DependencyTracer.analyzeMethodCall`. -/
def analyzeMethodCall : CalleeShape → Option MethodCallInfo
  | .propAccessThis methodName line =>
    some { methodName := methodName, targetObject := "this", lineNumber := line }
  | .propAccessIdent obj methodName line =>
    some { methodName := methodName, targetObject := obj, lineNumber := line }
  | .otherShape => none

/-- `DependencyTracer.extractMethodCalls`. -/
def extractMethodCalls (method : MethodDecl) : List MethodCallInfo :=
  method.callExprs.filterMap analyzeMethodCall

/-- `DependencyTracer.extractRepositoryDependencies`: constructor parameters
    decorated with `@InjectRepository(Entity)`. -/
def extractRepositoryDependencies (cls : ClassDecl) : List DependencyInfo :=
  cls.ctors.flatMap (fun params =>
    params.flatMap (fun param =>
      param.decorators.filterMap (fun dec =>
        if dec.name = "InjectRepository" then
          match dec.args with
          | [] => none
          | entityType :: _ =>
            some { serviceName := "Repository<" ++ entityType ++ ">",
                   serviceType := "repository",
                   injectionToken := some entityType,
                   parameterName := param.name }
        else none)))

/-- An entity relationship extracted from a relation decorator. -/
structure RelationshipDecl where
  property : String
  relationType : String
  targetEntity : String
deriving DecidableEq, Repr

/-- `DependencyTracer.extractEntityRelationships`. -/
def extractEntityRelationships (cls : ClassDecl) : List RelationshipDecl :=
  cls.properties.flatMap (fun prop =>
    prop.decorators.filterMap (fun dec =>
      if ["OneToOne", "OneToMany", "ManyToOne", "ManyToMany"].contains dec.name then
        match dec.args with
        | [] => none
        | targetEntity :: _ =>
          some { property := prop.name,
                 relationType := dec.name,
                 targetEntity := stripQuotes targetEntity }
      else none))

/-- The class-name comparison used by both passes of
    `DependencyTracer.findServiceFile`:
    `className === serviceName || className === serviceName.replace(/Service$/, "")
     || className?.toLowerCase() === serviceName.toLowerCase()`. -/
def classNameMatchesService (clsName : Option String) (serviceName : String) : Bool :=
  match clsName with
  | none => false
  | some n =>
    n = serviceName || n = stripEndSuffix serviceName "Service" ||
      strToLower n = strToLower serviceName

/-- First pass of `DependencyTracer.findServiceFile`: scan loaded files whose
    (lower-cased) basename contains `term.service.ts` or `term.ts` for one of
    the search terms, and return the first such file declaring a matching
    class. -/
def findServiceFilePass1 (p : Project) (serviceName : String) : Option String :=
  let searchTerms :=
    [strToLower serviceName, strToLower (stripEndSuffix serviceName "Service"), serviceName]
  p.files.findSome? (fun file =>
    let fileName := strToLower (basename file.filePath)
    if searchTerms.any (fun term =>
        strContains fileName (strToLower term ++ ".service.ts") ||
        strContains fileName (strToLower term ++ ".ts")) then
      if file.classes.any (fun cls => classNameMatchesService cls.name serviceName) then
        some file.filePath
      else none
    else none)

/-- Second pass of `DependencyTracer.findServiceFile`: after attempting to
    widen the project via glob patterns, scan all loaded files checking only
    the declared class names. The widening is modelled as the already-loaded
    universe (see the header comment). -/
def findServiceFilePass2 (p : Project) (serviceName : String) : Option String :=
  p.files.findSome? (fun file =>
    if file.classes.any (fun cls => classNameMatchesService cls.name serviceName) then
      some file.filePath
    else none)

/-- `DependencyTracer.findServiceFile`. Returns `none` on exhaustion; the
    function is total, mirroring the "never throws" contract. -/
def findServiceFile (p : Project) (serviceName : String) : Option String :=
  match findServiceFilePass1 p serviceName with
  | some path => some path
  | none => findServiceFilePass2 p serviceName

/-- Matcher for the two glob shapes used by `findRepositoryFile` and
    `findEntityFile`: a pattern `**/<stem>` matches files with exactly that
    basename, and `**/*<suffix>` matches files whose basename ends with the
    suffix. -/
def matchesGlob (pattern : String) (filePath : String) : Bool :=
  if strStartsWith pattern "**/*" then strEndsWith (basename filePath) (strDrop pattern 4)
  else if strStartsWith pattern "**/" then basename filePath = strDrop pattern 3
  else false

/-- `project.getSourceFiles(pattern)` for the glob shapes above. -/
def getSourceFilesMatching (p : Project) (pattern : String) : List SourceFile :=
  p.files.filter (fun f => matchesGlob pattern f.filePath)

/-- `DependencyTracer.findRepositoryFile`. -/
def findRepositoryFile (p : Project) (repositoryName : String) : Option String :=
  let possiblePaths :=
    ["**/" ++ strToLower repositoryName ++ ".repository.ts",
     "**/" ++ strToLower (stripEndSuffix repositoryName "Repository") ++ ".repository.ts",
     "**/*" ++ repositoryName ++ ".ts",
     "**/*" ++ strToLower repositoryName ++ ".ts"]
  possiblePaths.findSome? (fun pattern =>
    match getSourceFilesMatching p pattern with
    | [] => none
    | f :: _ => some f.filePath)

/-- `DependencyTracer.findEntityFile`. -/
def findEntityFile (p : Project) (entityName : String) : Option String :=
  let possiblePaths :=
    ["**/" ++ strToLower entityName ++ ".entity.ts",
     "**/" ++ strToLower (stripEndSuffix entityName "Entity") ++ ".entity.ts",
     "**/*" ++ entityName ++ ".ts",
     "**/*" ++ strToLower entityName ++ ".ts"]
  possiblePaths.findSome? (fun pattern =>
    match getSourceFilesMatching p pattern with
    | [] => none
    | f :: _ => some f.filePath)

/-! ### Graph builder (`parser/CallGraphParser.ts`) -/

/-- The mutable per-build instance state of `CallGraphParser`:
    `nodeCache : Map<string, CallGraphNode>` (as an insertion-ordered
    association list) and `processedFiles : Set<string>`. -/
structure ParserState where
  nodeCache : List (String × CallGraphNode)
  processedFiles : List String
deriving DecidableEq, Repr

/-- `nodeCache.get(nodeId)`. -/
def cacheGet (st : ParserState) (nodeId : String) : Option CallGraphNode :=
  (st.nodeCache.find? (fun pr => pr.1 = nodeId)).map (fun pr => pr.2)

/-- The `if (cache.has(id)) return cache.get(id); … cache.set(id, node)`
    pattern shared by every node-creation method. -/
def cacheFetchOrCreate (st : ParserState) (nodeId : String) (node : CallGraphNode) :
    CallGraphNode × ParserState :=
  match cacheGet st nodeId with
  | some n => (n, st)
  | none => (node, { st with nodeCache := st.nodeCache ++ [(nodeId, node)] })

/-- The endpoint node id:
    `endpoint:{controller}:{handlerName}:{filePath}:{lineNumber}`. -/
def endpointNodeId (e : EndpointInfo) : String :=
  "endpoint:" ++ e.controller ++ ":" ++ e.handlerName ++ ":" ++ e.filePath ++ ":" ++
    toString e.lineNumber

/-- `CallGraphParser.createEndpointNode`. -/
def createEndpointNode (st : ParserState) (e : EndpointInfo) :
    CallGraphNode × ParserState :=
  let nodeId := endpointNodeId e
  cacheFetchOrCreate st nodeId
    { id := nodeId,
      name := e.method ++ " " ++ e.path,
      type := .endpoint,
      filePath := e.filePath,
      lineNumber := e.lineNumber,
      metadata :=
        { httpMethod := some e.method,
          route := some e.path,
          className := some e.controller,
          methodName := some e.handlerName,
          decorators := e.guards ++ e.pipes ++ e.interceptors } }

/-- `CallGraphParser.getServiceNodeId`: `service:{serviceName}:{filePath}`. -/
def getServiceNodeId (serviceName filePath : String) : String :=
  "service:" ++ serviceName ++ ":" ++ filePath

/-- The unchecked TypeScript cast `dependency.serviceType as
    CallGraphNode["type"]`. `inferServiceType` only ever produces the five
    strings below; any other string is mapped like the cast would leave it
    unconstrained, defaulting to `service`. -/
def nodeTypeOfString (s : String) : NodeType :=
  if s = "service" then .service
  else if s = "repository" then .repository
  else if s = "guard" then .guard
  else if s = "pipe" then .pipe
  else if s = "interceptor" then .interceptor
  else if s = "endpoint" then .endpoint
  else if s = "entity" then .entity
  else if s = "dto" then .dto
  else .service

/-- `CallGraphParser.createServiceNode`. -/
def createServiceNode (st : ParserState) (dependency : DependencyInfo)
    (filePath : String) (nodeType : NodeType) : CallGraphNode × ParserState :=
  let nodeId := getServiceNodeId dependency.serviceName filePath
  cacheFetchOrCreate st nodeId
    { id := nodeId,
      name := dependency.serviceName,
      type := nodeType,
      filePath := filePath,
      lineNumber := 1,
      metadata := { className := some dependency.serviceName } }

/-- `CallGraphParser.createRepositoryNode`. -/
def createRepositoryNode (st : ParserState) (dependency : DependencyInfo)
    (filePath : String) : CallGraphNode × ParserState :=
  let nodeId := "repository:" ++ dependency.serviceName ++ ":" ++ filePath
  cacheFetchOrCreate st nodeId
    { id := nodeId,
      name := dependency.serviceName,
      type := .repository,
      filePath := filePath,
      lineNumber := 1,
      metadata := { className := some dependency.serviceName } }

/-- `CallGraphParser.createEntityNode`. -/
def createEntityNode (st : ParserState) (entityName filePath : String) :
    CallGraphNode × ParserState :=
  let nodeId := "entity:" ++ entityName ++ ":" ++ filePath
  cacheFetchOrCreate st nodeId
    { id := nodeId,
      name := entityName,
      type := .entity,
      filePath := filePath,
      lineNumber := 1,
      metadata := { className := some entityName } }

/-- `CallGraphParser.createGuardNode`. -/
def createGuardNode (st : ParserState) (guardName filePath : String) :
    CallGraphNode × ParserState :=
  let nodeId := "guard:" ++ guardName ++ ":" ++ filePath
  cacheFetchOrCreate st nodeId
    { id := nodeId, name := guardName, type := .guard, filePath := filePath,
      lineNumber := 1, metadata := { className := some guardName } }

/-- `CallGraphParser.createPipeNode`. -/
def createPipeNode (st : ParserState) (pipeName filePath : String) :
    CallGraphNode × ParserState :=
  let nodeId := "pipe:" ++ pipeName ++ ":" ++ filePath
  cacheFetchOrCreate st nodeId
    { id := nodeId, name := pipeName, type := .pipe, filePath := filePath,
      lineNumber := 1, metadata := { className := some pipeName } }

/-- `CallGraphParser.createInterceptorNode`. -/
def createInterceptorNode (st : ParserState) (interceptorName filePath : String) :
    CallGraphNode × ParserState :=
  let nodeId := "interceptor:" ++ interceptorName ++ ":" ++ filePath
  cacheFetchOrCreate st nodeId
    { id := nodeId, name := interceptorName, type := .interceptor,
      filePath := filePath, lineNumber := 1,
      metadata := { className := some interceptorName } }

/-- `CallGraphParser.processDependency`. The TypeScript return type is
    nullable but the function always returns a node/edge pair; the
    callers' `if (serviceNode && serviceEdge)` guard is therefore always
    taken, and the embedding returns the pair directly. -/
def processDependency (p : Project) (st : ParserState) (dependency : DependencyInfo)
    (parentNodeId : String) : (CallGraphNode × CallGraphEdge) × ParserState :=
  let nodeType := nodeTypeOfString dependency.serviceType
  let filePath :=
    if dependency.serviceType = "service" then
      (findServiceFile p dependency.serviceName).getD ""
    else if dependency.serviceType = "repository" then
      (findRepositoryFile p dependency.serviceName).getD ""
    else ""
  let (serviceNode, st) := createServiceNode st dependency filePath nodeType
  let serviceEdge : CallGraphEdge :=
    { fromId := parentNodeId,
      toId := serviceNode.id,
      type := .injects,
      metadata := { parameter := some dependency.parameterName,
                    injectionToken := dependency.injectionToken } }
  ((serviceNode, serviceEdge), st)

/-- The nodes/edges accumulated by one trace call. -/
structure TraceResult where
  nodes : List CallGraphNode
  edges : List CallGraphEdge
deriving DecidableEq, Repr

/-- The relationship loop inside `traceEntityRelationships`. -/
def entityRelLoop (p : Project) (parentNodeId : String) :
    List RelationshipDecl → ParserState → TraceResult × ParserState
  | [], st => (⟨[], []⟩, st)
  | rel :: rels, st =>
    match findEntityFile p rel.targetEntity with
    | some relatedEntityPath =>
      let (relatedEntityNode, st) := createEntityNode st rel.targetEntity relatedEntityPath
      let relationshipEdge : CallGraphEdge :=
        { fromId := parentNodeId,
          toId := relatedEntityNode.id,
          type := .uses,
          metadata := { method := some rel.relationType } }
      let (rest, st) := entityRelLoop p parentNodeId rels st
      (⟨relatedEntityNode :: rest.nodes, relationshipEdge :: rest.edges⟩, st)
    | none => entityRelLoop p parentNodeId rels st

/-- `CallGraphParser.traceEntityRelationships`. Note that, unlike the service
    tracer, this function checks `processedFiles` but never adds to it. -/
def traceEntityRelationships (p : Project) (entityPath entityName parentNodeId : String)
    (config : CallGraphConfig) (currentDepth : Nat) (st : ParserState) :
    TraceResult × ParserState :=
  if currentDepth ≥ config.maxDepth || st.processedFiles.contains entityPath then
    (⟨[], []⟩, st)
  else
    match getSourceFile p entityPath with
    | none => (⟨[], []⟩, st)
    | some sourceFile =>
      match sourceFile.classes.find? (fun cls =>
          cls.name = some entityName ||
          cls.name = some (stripEndSuffix entityName "Entity")) with
      | none => (⟨[], []⟩, st)
      | some entityClass =>
        entityRelLoop p parentNodeId (extractEntityRelationships entityClass) st

/-- The regular-dependency loop inside `traceServiceDependencies` (no
    recursion: service-of-service dependencies only get a node and an edge). -/
def serviceDepLoop (p : Project) (parentNodeId : String) :
    List DependencyInfo → ParserState → TraceResult × ParserState
  | [], st => (⟨[], []⟩, st)
  | dependency :: deps, st =>
    let ((serviceNode, serviceEdge), st) := processDependency p st dependency parentNodeId
    let (rest, st) := serviceDepLoop p parentNodeId deps st
    (⟨serviceNode :: rest.nodes, serviceEdge :: rest.edges⟩, st)

/-- The `if (config.includeEntities && repoDependency.injectionToken)` block
    inside the repository-dependency loop of `traceServiceDependencies`:
    resolve the bound entity's file, add a `uses` edge repository→entity and
    the entity's relationship expansion. -/
def entityPartOfRepoDep (p : Project) (config : CallGraphConfig) (currentDepth : Nat)
    (repoNode : CallGraphNode) (repoDependency : DependencyInfo) (st : ParserState) :
    TraceResult × ParserState :=
  if config.includeEntities then
    match strTruthy repoDependency.injectionToken with
    | some token =>
      match findEntityFile p token with
      | some entityPath =>
        let (entityNode, st) := createEntityNode st token entityPath
        let entityEdge : CallGraphEdge :=
          { fromId := repoNode.id,
            toId := entityNode.id,
            type := .uses,
            metadata := {} }
        let (relations, st) :=
          traceEntityRelationships p entityPath token entityNode.id config
            (currentDepth + 1) st
        ((⟨entityNode :: relations.nodes, entityEdge :: relations.edges⟩ :
           TraceResult), st)
      | none => ((⟨[], []⟩ : TraceResult), st)
    | none => ((⟨[], []⟩ : TraceResult), st)
  else ((⟨[], []⟩ : TraceResult), st)

/-- The repository-dependency loop inside `traceServiceDependencies`. -/
def repoDepLoop (p : Project) (servicePath parentNodeId : String)
    (config : CallGraphConfig) (currentDepth : Nat) :
    List DependencyInfo → ParserState → TraceResult × ParserState
  | [], st => (⟨[], []⟩, st)
  | repoDependency :: deps, st =>
    let (repositoryNode, st) := createRepositoryNode st repoDependency servicePath
    let repositoryEdge : CallGraphEdge :=
      { fromId := parentNodeId,
        toId := repositoryNode.id,
        type := .injects,
        metadata := { injectionToken := repoDependency.injectionToken } }
    let (entityPart, st) :=
      entityPartOfRepoDep p config currentDepth repositoryNode repoDependency st
    let (rest, st) := repoDepLoop p servicePath parentNodeId config currentDepth deps st
    (⟨repositoryNode :: (entityPart.nodes ++ rest.nodes),
      repositoryEdge :: (entityPart.edges ++ rest.edges)⟩, st)

/-- `CallGraphParser.traceServiceDependencies`. -/
def traceServiceDependencies (p : Project) (servicePath serviceName parentNodeId : String)
    (config : CallGraphConfig) (currentDepth : Nat) (st : ParserState) :
    TraceResult × ParserState :=
  if currentDepth ≥ config.maxDepth || st.processedFiles.contains servicePath then
    (⟨[], []⟩, st)
  else
    let st := { st with processedFiles := st.processedFiles ++ [servicePath] }
    match getSourceFile p servicePath with
    | none => (⟨[], []⟩, st)
    | some sourceFile =>
      match sourceFile.classes.find? (fun cls =>
          cls.name = some serviceName ||
          cls.name = some (stripEndSuffix serviceName "Service")) with
      | none => (⟨[], []⟩, st)
      | some serviceClass =>
        let dependencies := extractConstructorDependencies serviceClass
        let repositoryDependencies := extractRepositoryDependencies serviceClass
        let (regular, st) := serviceDepLoop p parentNodeId dependencies st
        let (repos, st) :=
          repoDepLoop p servicePath parentNodeId config currentDepth
            repositoryDependencies st
        (⟨regular.nodes ++ repos.nodes, regular.edges ++ repos.edges⟩, st)

/-- The constructor-dependency loop inside `traceEndpointDependencies`: each
    dependency gets a node and an `injects` edge, and service dependencies
    are additionally expanded one level via `traceServiceDependencies` when
    the depth budget and the visited-file set allow. -/
def endpointDepLoop (p : Project) (parentNodeId : String) (config : CallGraphConfig)
    (currentDepth : Nat) :
    List DependencyInfo → ParserState → TraceResult × ParserState
  | [], st => (⟨[], []⟩, st)
  | dependency :: deps, st =>
    let ((serviceNode, serviceEdge), st) := processDependency p st dependency parentNodeId
    let (sub, st) :=
      if dependency.serviceType = "service" && currentDepth < config.maxDepth - 1 then
        match findServiceFile p dependency.serviceName with
        | some servicePath =>
          if !(st.processedFiles.contains servicePath) then
            traceServiceDependencies p servicePath dependency.serviceName serviceNode.id
              config (currentDepth + 1) st
          else ((⟨[], []⟩ : TraceResult), st)
        | none => ((⟨[], []⟩ : TraceResult), st)
      else ((⟨[], []⟩ : TraceResult), st)
    let (rest, st) := endpointDepLoop p parentNodeId config currentDepth deps st
    (⟨serviceNode :: (sub.nodes ++ rest.nodes),
      serviceEdge :: (sub.edges ++ rest.edges)⟩, st)

/-- The `calls`-edge synthesis from the endpoint handler's method calls:
    a call `x.m(...)` whose receiver `x` names a constructor dependency's
    parameter produces a `calls` edge to `getServiceNodeId(name, "")` —
    note the empty file path. -/
def methodCallEdges (dependencies : List DependencyInfo) (parentNodeId : String)
    (handlerMethod : MethodDecl) : List CallGraphEdge :=
  (extractMethodCalls handlerMethod).filterMap (fun methodCall =>
    if methodCall.targetObject ≠ "this" then
      match dependencies.find? (fun dep => dep.parameterName = methodCall.targetObject) with
      | some dependency =>
        some { fromId := parentNodeId,
               toId := getServiceNodeId dependency.serviceName "",
               type := .calls,
               metadata := { method := some methodCall.methodName } }
      | none => none
    else none)

/-- The guard/pipe/interceptor attachment loops of
    `traceEndpointDependencies`, parametrised by the node-creation function
    and the edge type. -/
def attachNamedLoop (create : ParserState → String → String → CallGraphNode × ParserState)
    (edgeType : EdgeType) (filePath parentNodeId : String) :
    List String → ParserState → TraceResult × ParserState
  | [], st => (⟨[], []⟩, st)
  | name :: names, st =>
    let (node, st) := create st name filePath
    let edge : CallGraphEdge :=
      { fromId := parentNodeId, toId := node.id, type := edgeType, metadata := {} }
    let (rest, st) := attachNamedLoop create edgeType filePath parentNodeId names st
    (⟨node :: rest.nodes, edge :: rest.edges⟩, st)

/-- One `if (config.includeX && endpoint.xs) { for … }` attachment block of
    `traceEndpointDependencies`. -/
def attachIf (flag : Bool)
    (create : ParserState → String → String → CallGraphNode × ParserState)
    (edgeType : EdgeType) (filePath parentNodeId : String) (names : List String)
    (st : ParserState) : TraceResult × ParserState :=
  if flag then attachNamedLoop create edgeType filePath parentNodeId names st
  else (⟨[], []⟩, st)

/-- `CallGraphParser.traceEndpointDependencies`. -/
def traceEndpointDependencies (p : Project) (endpoint : EndpointInfo)
    (parentNodeId : String) (config : CallGraphConfig) (currentDepth : Nat)
    (st : ParserState) : TraceResult × ParserState :=
  if currentDepth ≥ config.maxDepth then (⟨[], []⟩, st)
  else
    match getSourceFile p endpoint.filePath with
    | none => (⟨[], []⟩, st)
    | some sourceFile =>
      if st.processedFiles.contains endpoint.filePath then (⟨[], []⟩, st)
      else
        let st := { st with processedFiles := st.processedFiles ++ [endpoint.filePath] }
        match sourceFile.classes.find? (fun cls => cls.name = some endpoint.controller) with
        | none => (⟨[], []⟩, st)
        | some controllerClass =>
          let dependencies := extractConstructorDependencies controllerClass
          let (depsPart, st) :=
            endpointDepLoop p parentNodeId config currentDepth dependencies st
          let callsEdges :=
            match controllerClass.methods.find? (fun m => m.name = endpoint.handlerName) with
            | some handlerMethod => methodCallEdges dependencies parentNodeId handlerMethod
            | none => []
          let (guardsPart, st) :=
            attachIf config.includeGuards createGuardNode .guards endpoint.filePath
              parentNodeId endpoint.guards st
          let (pipesPart, st) :=
            attachIf config.includePipes createPipeNode .pipes endpoint.filePath
              parentNodeId endpoint.pipes st
          let (interceptorsPart, st) :=
            attachIf config.includeInterceptors createInterceptorNode .intercepts
              endpoint.filePath parentNodeId endpoint.interceptors st
          (⟨depsPart.nodes ++ guardsPart.nodes ++ pipesPart.nodes ++
              interceptorsPart.nodes,
            depsPart.edges ++ callsEdges ++ guardsPart.edges ++ pipesPart.edges ++
              interceptorsPart.edges⟩, st)

/-- The dedup key of `removeDuplicateEdges`:
    `{edge.from}->{edge.to}:{edge.type}`. -/
def edgeKey (e : CallGraphEdge) : String :=
  e.fromId ++ "->" ++ e.toId ++ ":" ++ edgeTypeToString e.type

/-- The `seen`-set filter pattern shared by `removeDuplicateNodes` and
    `removeDuplicateEdges`: keep the first occurrence of each key. -/
def dedupBy {α : Type} (key : α → String) : List α → List String → List α
  | [], _ => []
  | x :: xs, seen =>
    if (key x) ∈ seen then dedupBy key xs seen
    else x :: dedupBy key xs (key x :: seen)

/-- `CallGraphParser.removeDuplicateNodes`. -/
def removeDuplicateNodes (nodes : List CallGraphNode) : List CallGraphNode :=
  dedupBy (fun n => n.id) nodes []

/-- `CallGraphParser.removeDuplicateEdges`. -/
def removeDuplicateEdges (edges : List CallGraphEdge) : List CallGraphEdge :=
  dedupBy edgeKey edges []

/-- The per-endpoint loop of `buildCallGraph`: push the endpoint node, record
    it as a root, and append the traced nodes/edges. -/
def buildLoop (p : Project) (config : CallGraphConfig) :
    List EndpointInfo → ParserState →
    (TraceResult × List String) × ParserState
  | [], st => ((⟨[], []⟩, []), st)
  | endpoint :: endpoints, st =>
    let (endpointNode, st) := createEndpointNode st endpoint
    let (traced, st) :=
      traceEndpointDependencies p endpoint endpointNode.id config 0 st
    let ((rest, restRoots), st) := buildLoop p config endpoints st
    ((⟨endpointNode :: (traced.nodes ++ rest.nodes), traced.edges ++ rest.edges⟩,
      endpointNode.id :: restRoots), st)

/-- `CallGraphParser.buildCallGraph`. The incoming `st` models the builder
    instance's mutable caches; they are cleared at the start of every build,
    so the result never depends on `st`. The optional-config merge is
    modelled by taking the fully-merged configuration as an argument. -/
def buildCallGraph (p : Project) (st : ParserState) (endpoints : List EndpointInfo)
    (config : CallGraphConfig) : CallGraph :=
  let _ := st
  let st0 : ParserState := { nodeCache := [], processedFiles := [] }
  let ((result, rootNodes), _) := buildLoop p config endpoints st0
  { nodes := removeDuplicateNodes result.nodes,
    edges := removeDuplicateEdges result.edges,
    rootNodes := rootNodes }

/-- The defaults applied when `buildCallGraph` is called without a config. -/
def defaultCallGraphConfig : CallGraphConfig :=
  { maxDepth := 5, includeEntities := true, includeGuards := true,
    includePipes := true, includeInterceptors := true }

/-- `CallGraphParser.buildEndpointCallGraph` (no config override). -/
def buildEndpointCallGraph (p : Project) (st : ParserState) (endpoint : EndpointInfo) :
    CallGraph :=
  buildCallGraph p st [endpoint] defaultCallGraphConfig

/-! ### Demo-data enrichment (`providers/CallGraphProvider.ts`) -/

/-- Word characters of the JavaScript regex class `\w`. -/
def isWordChar (c : Char) : Bool :=
  c.isAlphanum || c = '_'

/-- Length of the maximal `\w` run at the head of the character list. -/
def wordRunLength : List Char → Nat
  | [] => 0
  | c :: cs => if isWordChar c then wordRunLength cs + 1 else 0

/-- Length of the maximal `\s` run at the head of the character list
    (JavaScript `\s` restricted to ASCII whitespace, which is all that can
    occur in the type texts involved). -/
def whiteRunLength : List Char → Nat
  | [] => 0
  | c :: cs => if c.isWhitespace then whiteRunLength cs + 1 else 0

/-- Greedy search for the capture of `(\w+)Dto` inside a word run `rest`:
    the largest positive `j` not exceeding the word-run length such that the
    literal `Dto` follows the first `j` characters. -/
def dtoCaptureFrom (rest : List Char) : Nat → Option (List Char)
  | 0 => none
  | j + 1 =>
    if listStartsWith (rest.drop (j + 1)) "Dto".data then some (rest.take (j + 1))
    else dtoCaptureFrom rest j

/-- Leftmost match of `/(?:Filter|Create|Update)(\w+)Dto/`, returning the
    capture group (all three alternatives are 6 characters long). -/
def matchEntityFromDtoAux : List Char → Option String
  | [] => none
  | c :: cs =>
    match ["Filter", "Create", "Update"].findSome? (fun marker =>
        if listStartsWith (c :: cs) marker.data then
          let rest := (c :: cs).drop 6
          (dtoCaptureFrom rest (wordRunLength rest)).map String.mk
        else none) with
    | some cap => some cap
    | none => matchEntityFromDtoAux cs

/-- `/(?:Filter|Create|Update)(\w+)Dto/.exec(s)?.[1]`. -/
def matchEntityFromDto (s : String) : Option String :=
  matchEntityFromDtoAux s.data

/-- Leftmost match of `/(\w+)\[\]/`, returning the capture group. Because
    `[` is not a word character, the capture at a given start position is
    forced to be the maximal word run there, and a failed position advances
    by one character. -/
def matchWordArrayAux : List Char → Option String
  | [] => none
  | c :: cs =>
    if isWordChar c then
      let r := wordRunLength (c :: cs)
      if listStartsWith ((c :: cs).drop r) "[]".data then
        some (String.mk ((c :: cs).take r))
      else matchWordArrayAux cs
    else matchWordArrayAux cs

/-- `/(\w+)\[\]/.exec(s)?.[1]`. -/
def matchWordArray (s : String) : Option String :=
  matchWordArrayAux s.data

/-- Leftmost match of `/\w+:\s*(\w+)\[\]/`, returning the capture group. -/
def matchPropArrayAux : List Char → Option String
  | [] => none
  | c :: cs =>
    let here : Option String :=
      if isWordChar c then
        let r := wordRunLength (c :: cs)
        match (c :: cs).drop r with
        | ch :: rest2 =>
          if ch = ':' then
            let afterWs := rest2.drop (whiteRunLength rest2)
            let r2 := wordRunLength afterWs
            if 0 < r2 && listStartsWith (afterWs.drop r2) "[]".data then
              some (String.mk (afterWs.take r2))
            else none
          else none
        | [] => none
      else none
    match here with
    | some cap => some cap
    | none => matchPropArrayAux cs

/-- `/\w+:\s*(\w+)\[\]/.exec(s)?.[1]`. -/
def matchPropArray (s : String) : Option String :=
  matchPropArrayAux s.data

/-- `CallGraphProvider.generateServiceMethodName`. -/
def generateServiceMethodName (httpMethod entityName : String)
    (handlerName : Option String) : String :=
  match strTruthy handlerName with
  | some h => h
  | none =>
    if strToUpper httpMethod = "GET" then "findAll" ++ entityName ++ "s"
    else if strToUpper httpMethod = "POST" then "create" ++ entityName
    else if strToUpper httpMethod = "PUT" then "update" ++ entityName
    else if strToUpper httpMethod = "PATCH" then "update" ++ entityName
    else if strToUpper httpMethod = "DELETE" then "delete" ++ entityName
    else "process" ++ entityName

/-- `CallGraphProvider.generateRepositoryMethodName`. -/
def generateRepositoryMethodName (httpMethod entityName : String) : String :=
  if strToUpper httpMethod = "GET" then "find" ++ entityName ++ "s"
  else if strToUpper httpMethod = "POST" then "create" ++ entityName
  else if strToUpper httpMethod = "PUT" then "update" ++ entityName
  else if strToUpper httpMethod = "PATCH" then "update" ++ entityName
  else if strToUpper httpMethod = "DELETE" then "delete" ++ entityName
  else "process" ++ entityName

/-- The in-place update of the existing endpoint→service edge performed by
    the enrichment: the first edge with the given endpoints has its type
    overwritten to `calls` and its metadata `method` set. -/
def updateEdgeToCalls : List CallGraphEdge → String → String → String →
    List CallGraphEdge
  | [], _, _, _ => []
  | e :: es, f, t, m =>
    if e.fromId = f && e.toId = t then
      { e with type := .calls, metadata := { e.metadata with method := some m } } :: es
    else e :: updateEdgeToCalls es f t m

/-- The entity-name inference of the enrichment: try the input DTO pattern
    `(?:Filter|Create|Update)(\w+)Dto`, then the output DTO patterns
    `(\w+)[]` (excluding `Promise`) and `\w+:\s*(\w+)[]`; otherwise fall back
    to the controller base name as a demo entity. Returns the entity name and
    the `isDemoEntity` flag. -/
def inferEntityName (endpoint : EndpointInfo) (controllerBaseName : String) :
    String × Bool :=
  let step1 : String × Bool :=
    match strTruthy endpoint.inputDto with
    | some d =>
      match matchEntityFromDto d with
      | some cap => (cap, false)
      | none => (controllerBaseName, true)
    | none => (controllerBaseName, true)
  if step1.2 then
    match strTruthy endpoint.outputDto with
    | some d =>
      match matchWordArray d with
      | some cap =>
        if cap ≠ "Promise" then (cap, false)
        else
          match matchPropArray d with
          | some cap2 => (cap2, false)
          | none => (controllerBaseName, true)
      | none =>
        match matchPropArray d with
        | some cap2 => (cap2, false)
        | none => (controllerBaseName, true)
    | none => (controllerBaseName, true)
  else step1

/-- `CallGraphProvider.enhanceCallGraphWithDemoData`. -/
def enhanceCallGraphWithDemoData (callGraph : CallGraph)
    (endpointOpt : Option EndpointInfo) : CallGraph :=
  match endpointOpt with
  | none => callGraph
  | some endpoint =>
    if callGraph.nodes.length ≤ 2 then
      match callGraph.nodes.find? (fun n => n.type == NodeType.endpoint),
            callGraph.nodes.find? (fun n => n.type == NodeType.service) with
      | some endpointNode, some serviceNode =>
        let controllerBaseName := removeFirst endpoint.controller "Controller"
        let serviceMethodName :=
          generateServiceMethodName endpoint.method controllerBaseName
            (some endpoint.handlerName)
        let edges1 :=
          updateEdgeToCalls callGraph.edges endpointNode.id serviceNode.id
            serviceMethodName
        let repoName := controllerBaseName ++ "Repository"
        let repoNode : CallGraphNode :=
          { id := "demo-repository:" ++ repoName,
            name := repoName,
            type := .repository,
            filePath := endpoint.filePath,
            lineNumber := endpoint.lineNumber + 10,
            metadata := { className := some repoName, isDemoData := some true } }
        let (entityName, isDemoEntity) := inferEntityName endpoint controllerBaseName
        let entityNode : CallGraphNode :=
          { id := (if isDemoEntity then "demo-" else "") ++ "entity:" ++ entityName,
            name := entityName,
            type := .entity,
            filePath := endpoint.filePath,
            lineNumber := endpoint.lineNumber + 20,
            metadata := { className := some entityName,
                          isDemoData := some isDemoEntity } }
        let repoMethodName := generateRepositoryMethodName endpoint.method entityName
        let coreEdges : List CallGraphEdge :=
          [{ fromId := serviceNode.id, toId := repoNode.id, type := .calls,
             metadata := { isDemoData := some true, method := some repoMethodName } },
           { fromId := repoNode.id, toId := entityNode.id, type := .uses,
             metadata := { isDemoData := some true } }]
        let mutating := (["POST", "PUT", "PATCH"] : List String).contains endpoint.method
        let inputPart : List CallGraphNode × List CallGraphEdge :=
          match strTruthy endpoint.inputDto with
          | some d =>
            ([{ id := "dto:" ++ d, name := d, type := .dto,
                filePath := endpoint.filePath, lineNumber := endpoint.lineNumber + 30,
                metadata := { className := some d, isDemoData := some false } }],
             [{ fromId := endpointNode.id, toId := "dto:" ++ d, type := .uses,
                metadata := { isDemoData := some false } }])
          | none =>
            if mutating then
              ([{ id := "demo-dto:" ++ endpoint.controller ++ "Dto",
                  name := "Create" ++ controllerBaseName ++ "Dto", type := .dto,
                  filePath := endpoint.filePath, lineNumber := endpoint.lineNumber + 30,
                  metadata := { className := some ("Create" ++ controllerBaseName ++ "Dto"),
                                isDemoData := some true } }],
               [{ fromId := endpointNode.id,
                  toId := "demo-dto:" ++ endpoint.controller ++ "Dto", type := .uses,
                  metadata := { isDemoData := some true } }])
            else ([], [])
        let outputPart : List CallGraphNode × List CallGraphEdge :=
          match strTruthy endpoint.outputDto with
          | some d =>
            ([{ id := "dto:" ++ d, name := d, type := .dto,
                filePath := endpoint.filePath, lineNumber := endpoint.lineNumber + 35,
                metadata := { className := some d, isDemoData := some false } }],
             [{ fromId := serviceNode.id, toId := "dto:" ++ d, type := .returns,
                metadata := { isDemoData := some false } }])
          | none => ([], [])
        let guardPart : List CallGraphNode × List CallGraphEdge :=
          if !endpoint.isPublic then
            ([{ id := "demo-guard:AuthGuard", name := "AuthGuard", type := .guard,
                filePath := endpoint.filePath, lineNumber := endpoint.lineNumber + 40,
                metadata := { className := some "AuthGuard", isDemoData := some true } }],
             [{ fromId := endpointNode.id, toId := "demo-guard:AuthGuard",
                type := .guards, metadata := { isDemoData := some true } }])
          else ([], [])
        let pipePart : List CallGraphNode × List CallGraphEdge :=
          if (strTruthy endpoint.inputDto).isSome || mutating then
            ([{ id := "demo-pipe:ValidationPipe", name := "ValidationPipe", type := .pipe,
                filePath := endpoint.filePath, lineNumber := endpoint.lineNumber + 50,
                metadata := { className := some "ValidationPipe",
                              isDemoData := some true } }],
             [{ fromId := endpointNode.id, toId := "demo-pipe:ValidationPipe",
                type := .pipes, metadata := { isDemoData := some true } }])
          else ([], [])
        { nodes := callGraph.nodes ++ [repoNode, entityNode] ++ inputPart.1 ++
            outputPart.1 ++ guardPart.1 ++ pipePart.1,
          edges := edges1 ++ coreEdges ++ inputPart.2 ++ outputPart.2 ++
            guardPart.2 ++ pipePart.2,
          rootNodes := callGraph.rootNodes }
      | _, _ => callGraph
    else callGraph

/-- The public-facing graph of `CallGraphProvider.showEnhancedCallGraph` in
    its single-endpoint branch: build the endpoint's graph with the default
    configuration and enhance it when it has at most 2 nodes. -/
def showEnhancedCallGraph (p : Project) (st : ParserState) (endpoint : EndpointInfo) :
    CallGraph :=
  let callGraph := buildEndpointCallGraph p st endpoint
  if callGraph.nodes.length ≤ 2 then
    enhanceCallGraphWithDemoData callGraph (some endpoint)
  else callGraph

/-! ### Graph algorithms (`utils/GraphTraversal.ts`) -/

/-- The recursive DFS of `GraphTraversal.findReachableNodes`. In the source
    the recursion is bounded by `depth > maxDepth`; here `fuel` plays the
    role of `maxDepth + 1 - depth`, so fuel `0` is exactly the `depth >
    maxDepth` cutoff. The state is the (visited, reachable) pair. -/
def frDfs (g : CallGraph) : Nat → String → List String × List CallGraphNode →
    List String × List CallGraphNode
  | 0, _, st => st
  | fuel + 1, nodeId, (visited, reachable) =>
    if visited.contains nodeId then (visited, reachable)
    else
      let visited := visited ++ [nodeId]
      let reachable :=
        match g.nodes.find? (fun n => n.id = nodeId) with
        | some node => reachable ++ [node]
        | none => reachable
      (g.edges.filter (fun e => e.fromId = nodeId)).foldl
        (fun st e => frDfs g fuel e.toId st) (visited, reachable)

/-- `GraphTraversal.findReachableNodes`. -/
def findReachableNodes (g : CallGraph) (startNodeId : String) (maxDepth : Nat) :
    List CallGraphNode :=
  (frDfs g (maxDepth + 1) startNodeId ([], [])).2

/-- The DFS state of `GraphTraversal.detectCircularDependencies`. -/
structure CycState where
  visited : List String
  recursionStack : List String
  currentPath : List String
  cycles : List (List String)
deriving DecidableEq, Repr

/-- The recursive DFS of `detectCircularDependencies`. The boolean result is
    the "found a cycle" early return; once it is true the edge loop performs
    no further work, and — as in the source — the recursion stack and current
    path are *not* unwound on that early return. The recursion of the source
    is bounded by the growing visited set; the fuel supplied by
    `detectCircularDependencies` exceeds the number of node ids that can ever
    be visited, so the fuel-exhaustion branch is never taken. -/
def cycDfs (g : CallGraph) : Nat → String → CycState → Bool × CycState
  | 0, _, st => (false, st)
  | fuel + 1, nodeId, st =>
    if st.recursionStack.contains nodeId then
      let st :=
        match st.currentPath.indexOf? nodeId with
        | some cycleStart =>
          { st with cycles := st.cycles ++ [st.currentPath.drop cycleStart ++ [nodeId]] }
        | none => st
      (true, st)
    else if st.visited.contains nodeId then (false, st)
    else
      let st :=
        { st with visited := st.visited ++ [nodeId],
                  recursionStack := st.recursionStack ++ [nodeId],
                  currentPath := st.currentPath ++ [nodeId] }
      let (found, st) :=
        (g.edges.filter (fun e => e.fromId = nodeId)).foldl
          (fun acc e => if acc.1 then acc else cycDfs g fuel e.toId acc.2)
          (false, st)
      if found then (true, st)
      else
        (false, { st with recursionStack := st.recursionStack.erase nodeId,
                          currentPath := st.currentPath.dropLast })

/-- `GraphTraversal.detectCircularDependencies`. -/
def detectCircularDependencies (g : CallGraph) : List (List String) :=
  let fuel := g.nodes.length + g.edges.length + 1
  let finalState :=
    g.nodes.foldl
      (fun st node =>
        if st.visited.contains node.id then st else (cycDfs g fuel node.id st).2)
      ({ visited := [], recursionStack := [], currentPath := [], cycles := [] } :
        CycState)
  finalState.cycles

/-! ### Complexity metrics (`utils/VisualizationHelpers.ts`) -/

/-- Insertion-ordered association map `set` (JavaScript `Map.prototype.set`). -/
def mapSet (m : List (String × Nat)) (k : String) (v : Nat) : List (String × Nat) :=
  if m.any (fun pr => pr.1 = k) then
    m.map (fun pr => if pr.1 = k then (k, v) else pr)
  else m ++ [(k, v)]

/-- Association map `get` (JavaScript `Map.prototype.get`). -/
def mapGet (m : List (String × Nat)) (k : String) : Option Nat :=
  (m.find? (fun pr => pr.1 = k)).map (fun pr => pr.2)

/-- `VisualizationHelpers.calculateDepthFromNode`: longest path length via
    DFS with a per-path visited set (each child call receives a copy of the
    visited set). The recursion grows the visited set; the fuel supplied by
    `calculateComplexity` exceeds any possible path length. -/
def calculateDepthFromNode (edges : List CallGraphEdge) :
    Nat → String → List String → Nat
  | 0, _, _ => 0
  | fuel + 1, nodeId, visited =>
    if visited.contains nodeId then 0
    else
      let visited := visited ++ [nodeId]
      let outgoingEdges := edges.filter (fun e => e.fromId = nodeId)
      if outgoingEdges.isEmpty then 1
      else
        1 + outgoingEdges.foldl
          (fun acc e => max acc (calculateDepthFromNode edges fuel e.toId visited)) 0

/-- The record returned by `VisualizationHelpers.calculateComplexity`.
    JavaScript numbers are modelled as `Int` for the (possibly negative
    before clamping) cyclomatic complexity and as `Rat` for the two ratios. -/
structure ComplexityMetrics where
  cyclomaticComplexity : Int
  averageDegree : Rat
  maxDepth : Nat
  branchingFactor : Rat
deriving DecidableEq, Repr

/-- `VisualizationHelpers.calculateComplexity`. -/
def calculateComplexity (nodes : List CallGraphNode) (edges : List CallGraphEdge) :
    ComplexityMetrics :=
  let nodeCount := nodes.length
  let edgeCount := edges.length
  let cyclomaticComplexity : Int := max 1 ((edgeCount : Int) - (nodeCount : Int) + 2)
  let averageDegree : Rat :=
    if nodeCount > 0 then ((edgeCount : Rat) * 2) / (nodeCount : Rat) else 0
  let incoming0 := nodes.foldl (fun m n => mapSet m n.id 0) []
  let incoming :=
    edges.foldl (fun m e => mapSet m e.toId ((mapGet m e.toId).getD 0 + 1)) incoming0
  let rootNodes := nodes.filter (fun n => mapGet incoming n.id = some 0)
  let depthFuel := edges.length + 2
  let maxDepth :=
    rootNodes.foldl
      (fun acc root => max acc (calculateDepthFromNode edges depthFuel root.id [])) 0
  let outgoing0 := nodes.foldl (fun m n => mapSet m n.id 0) []
  let outgoing :=
    edges.foldl (fun m e => mapSet m e.fromId ((mapGet m e.fromId).getD 0 + 1)) outgoing0
  let totalBranching : Nat := (outgoing.map (fun pr => pr.2)).foldl (· + ·) 0
  let branchingFactor : Rat :=
    if nodeCount > 0 then (totalBranching : Rat) / (nodeCount : Rat) else 0
  { cyclomaticComplexity := cyclomaticComplexity,
    averageDegree := averageDegree,
    maxDepth := maxDepth,
    branchingFactor := branchingFactor }

/-! ### Specification-side reachability

The claim about `findReachableNodes` speaks of "the set of distinct nodes
reachable from the start node via outgoing edges within maxDepth hops". The
following definition formalises that wording (it is the only definition in
this file written from the specification's words rather than from the
source; it is used to compare `findReachableNodes` against the claim). -/

/-- `reachableWithinB g k src dst`: there is a directed path of at most `k`
    edges from `src` to `dst` along the graph's edges. -/
def reachableWithinB (g : CallGraph) : Nat → String → String → Bool
  | k, src, dst =>
    if src = dst then true
    else
      match k with
      | 0 => false
      | k + 1 =>
        (g.edges.filter (fun e => e.fromId = src)).any
          (fun e => reachableWithinB g k e.toId dst)

/-! ### Generic lemmas about the seen-set dedup filter -/

theorem mem_of_mem_dedupBy {α : Type} (key : α → String) :
    ∀ {l : List α} {seen : List String} {x : α}, x ∈ dedupBy key l seen → x ∈ l := by
  intro l
  induction l with
  | nil => intro seen x h; simp [dedupBy] at h
  | cons a l ih =>
    intro seen x h
    by_cases hs : key a ∈ seen
    · rw [dedupBy, if_pos hs] at h
      exact List.mem_cons_of_mem a (ih h)
    · rw [dedupBy, if_neg hs] at h
      rcases List.mem_cons.mp h with h | h
      · exact h ▸ List.mem_cons_self a l
      · exact List.mem_cons_of_mem a (ih h)

theorem key_not_mem_of_mem_dedupBy {α : Type} (key : α → String) :
    ∀ {l : List α} {seen : List String} {x : α},
      x ∈ dedupBy key l seen → key x ∉ seen := by
  intro l
  induction l with
  | nil => intro seen x h; simp [dedupBy] at h
  | cons a l ih =>
    intro seen x h
    by_cases hs : key a ∈ seen
    · rw [dedupBy, if_pos hs] at h
      exact ih h
    · rw [dedupBy, if_neg hs] at h
      rcases List.mem_cons.mp h with h | h
      · exact h ▸ hs
      · intro hmem
        exact (ih h) (List.mem_cons_of_mem _ hmem)

theorem dedupBy_pairwise {α : Type} (key : α → String) :
    ∀ (l : List α) (seen : List String),
      (dedupBy key l seen).Pairwise (fun a b => key a ≠ key b) := by
  intro l
  induction l with
  | nil => intro seen; simp [dedupBy]
  | cons a l ih =>
    intro seen
    by_cases hs : key a ∈ seen
    · rw [dedupBy, if_pos hs]; exact ih seen
    · rw [dedupBy, if_neg hs]
      refine List.Pairwise.cons ?_ (ih (key a :: seen))
      intro b hb heq
      exact (key_not_mem_of_mem_dedupBy key hb) (heq ▸ List.mem_cons_self _ _)

theorem exists_mem_dedupBy_of_mem {α : Type} (key : α → String) :
    ∀ {l : List α} {seen : List String} {x : α},
      x ∈ l → key x ∉ seen → ∃ y ∈ dedupBy key l seen, key y = key x := by
  intro l
  induction l with
  | nil => intro seen x h; simp at h
  | cons a l ih =>
    intro seen x hx hseen
    by_cases hs : key a ∈ seen
    · rw [dedupBy, if_pos hs]
      rcases List.mem_cons.mp hx with h | h
      · exact absurd (h ▸ hseen) (not_not_intro hs)
      · exact ih h hseen
    · rw [dedupBy, if_neg hs]
      by_cases hk : key x = key a
      · exact ⟨a, List.mem_cons_self _ _, hk.symm⟩
      · rcases List.mem_cons.mp hx with h | h
        · exact absurd (congrArg key h) hk
        · have hseen' : key x ∉ key a :: seen := by
            intro hmem
            rcases List.mem_cons.mp hmem with h' | h'
            · exact hk h'
            · exact hseen h'
          obtain ⟨y, hy, hky⟩ := ih h hseen'
          exact ⟨y, List.mem_cons_of_mem a hy, hky⟩

/-! ### Claim C4 — dedup invariant of built graphs -/

/-- **C4.** For every graph returned by `buildCallGraph`, no two nodes share
    an id and no two edges share the `(from, to, type)` triple; moreover the
    edge dedup removes only edges whose key (which encodes exactly that
    triple) already survives, so edges of different types between the same
    node pair both survive. -/
theorem c4_dedup_invariant (p : Project) (st : ParserState)
    (endpoints : List EndpointInfo) (config : CallGraphConfig)
    (edges : List CallGraphEdge) (e : CallGraphEdge) (he : e ∈ edges) :
    ((buildCallGraph p st endpoints config).nodes.Pairwise fun a b => a.id ≠ b.id)
    ∧ ((buildCallGraph p st endpoints config).edges.Pairwise fun a b =>
        ¬(a.fromId = b.fromId ∧ a.toId = b.toId ∧ a.type = b.type))
    ∧ ∃ e' ∈ removeDuplicateEdges edges, edgeKey e' = edgeKey e := by
  refine ⟨?_, ?_, ?_⟩
  · have h := dedupBy_pairwise (fun n : CallGraphNode => n.id)
      (buildLoop p config endpoints { nodeCache := [], processedFiles := [] }).1.1.nodes []
    simpa [buildCallGraph, removeDuplicateNodes] using h
  · have h := dedupBy_pairwise edgeKey
      (buildLoop p config endpoints { nodeCache := [], processedFiles := [] }).1.1.edges []
    have h' : (dedupBy edgeKey
        (buildLoop p config endpoints { nodeCache := [], processedFiles := [] }).1.1.edges
        []).Pairwise (fun a b =>
          ¬(a.fromId = b.fromId ∧ a.toId = b.toId ∧ a.type = b.type)) := by
      refine h.imp ?_
      intro a b hk
      rintro ⟨h1, h2, h3⟩
      exact hk (by simp [edgeKey, h1, h2, h3])
    simpa [buildCallGraph, removeDuplicateEdges] using h'
  · exact exists_mem_dedupBy_of_mem edgeKey he (by simp)

/-- Witness for C4 at a concrete edge list containing a duplicated triple and
    a same-pair different-type edge. -/
theorem c4_dedup_invariant_witness :
    ∃ e' ∈ removeDuplicateEdges
        [{ fromId := "a", toId := "b", type := .injects, metadata := {} },
         { fromId := "a", toId := "b", type := .calls, metadata := {} },
         { fromId := "a", toId := "b", type := .injects, metadata := {} }],
      edgeKey e'
        = edgeKey { fromId := "a", toId := "b", type := .calls, metadata := {} } := by
  exact (c4_dedup_invariant { files := [] } { nodeCache := [], processedFiles := [] }
    [] defaultCallGraphConfig _ _ (by simp)).2.2

/-! ### Claim C8 — determinism of repeated builds -/

/-- **C8.** Two calls to `buildCallGraph` with the same endpoint list,
    configuration and source tree produce the same graph whatever the state
    of the builder's caches was before each call: the node cache and the
    visited-file set are cleared at the start of every build, so the result
    does not depend on them (here the two results are literally equal, which
    subsumes equality of the node-id and edge-key sets up to ordering). -/
theorem c8_build_deterministic (p : Project) (st st' : ParserState)
    (endpoints : List EndpointInfo) (config : CallGraphConfig) :
    buildCallGraph p st endpoints config = buildCallGraph p st' endpoints config := rfl

/-! ### Claim C9 — complexity metric formulas -/

/-- **C9.** `calculateComplexity` computes
    `cyclomaticComplexity = max(1, edges - nodes + 2)` and
    `averageDegree = 2*edges/nodes` for a nonempty node list, and both
    ratios (`averageDegree`, `branchingFactor`) are `0` rather than a
    division by zero when the node list is empty. -/
theorem c9_complexity_formulas (nodes : List CallGraphNode)
    (edges : List CallGraphEdge) :
    (calculateComplexity nodes edges).cyclomaticComplexity
        = max 1 ((edges.length : Int) - (nodes.length : Int) + 2)
    ∧ (calculateComplexity nodes edges).averageDegree
        = (if 0 < nodes.length then
            (2 * (edges.length : Rat)) / (nodes.length : Rat) else 0)
    ∧ (calculateComplexity [] edges).averageDegree = 0
    ∧ (calculateComplexity [] edges).branchingFactor = 0 := by
  refine ⟨rfl, ?_, by simp [calculateComplexity], by simp [calculateComplexity]⟩
  simp only [calculateComplexity, gt_iff_lt]
  rw [mul_comm]

/-! ### Lemmas about bounded reachability -/

theorem reachableWithinB_refl (g : CallGraph) (k : Nat) (s : String) :
    reachableWithinB g k s s = true := by
  cases k <;> simp [reachableWithinB]

theorem reachableWithinB_mono (g : CallGraph) :
    ∀ {k k' : Nat} {s d : String}, k ≤ k' →
      reachableWithinB g k s d = true → reachableWithinB g k' s d = true := by
  intro k
  induction k with
  | zero =>
    intro k' s d _ h
    rw [reachableWithinB] at h
    by_cases hsd : s = d
    · exact hsd ▸ reachableWithinB_refl g k' s
    · rw [if_neg hsd] at h; exact absurd h (by simp)
  | succ k ih =>
    intro k' s d hk h
    rw [reachableWithinB] at h
    by_cases hsd : s = d
    · exact hsd ▸ reachableWithinB_refl g k' s
    · rw [if_neg hsd] at h
      obtain ⟨k'', rfl⟩ : ∃ k'', k' = k'' + 1 := by
        cases k' with
        | zero => omega
        | succ m => exact ⟨m, rfl⟩
      rw [reachableWithinB, if_neg hsd]
      rcases List.any_eq_true.mp h with ⟨e, he, hre⟩
      exact List.any_eq_true.mpr ⟨e, he, ih (by omega) hre⟩

theorem reachableWithinB_step (g : CallGraph) :
    ∀ {k : Nat} {s m : String}, reachableWithinB g k s m = true →
      ∀ e ∈ g.edges, e.fromId = m → reachableWithinB g (k + 1) s e.toId = true := by
  intro k
  induction k with
  | zero =>
    intro s m h e hmem hfrom
    rw [reachableWithinB] at h
    by_cases hsm : s = m
    · subst hsm
      by_cases hst : s = e.toId
      · exact hst ▸ reachableWithinB_refl g _ s
      · rw [reachableWithinB, if_neg hst]
        refine List.any_eq_true.mpr ⟨e, List.mem_filter.mpr ⟨hmem, by simp [hfrom]⟩, ?_⟩
        exact reachableWithinB_refl g 0 e.toId
    · rw [if_neg hsm] at h; exact absurd h (by simp)
  | succ k ih =>
    intro s m h e hmem hfrom
    rw [reachableWithinB] at h
    by_cases hsm : s = m
    · subst hsm
      by_cases hst : s = e.toId
      · exact hst ▸ reachableWithinB_refl g _ s
      · rw [reachableWithinB, if_neg hst]
        refine List.any_eq_true.mpr ⟨e, List.mem_filter.mpr ⟨hmem, by simp [hfrom]⟩, ?_⟩
        exact reachableWithinB_refl g _ e.toId
    · rw [if_neg hsm] at h
      rcases List.any_eq_true.mp h with ⟨e', he', hre'⟩
      by_cases hst : s = e.toId
      · exact hst ▸ reachableWithinB_refl g _ s
      · rw [reachableWithinB, if_neg hst]
        exact List.any_eq_true.mpr ⟨e', he', ih hre' e hmem hfrom⟩

/-- Soundness of the `findReachableNodes` DFS: under the fuel/depth
    accounting `fuel = maxDepth + 1 - depth`, every node it accumulates is
    reachable from the start node within `maxDepth` hops. -/
theorem frDfs_sound (g : CallGraph) (startId : String) (maxDepth : Nat) :
    ∀ (fuel : Nat) (nodeId : String) (k : Nat) (st : List String × List CallGraphNode),
      k + fuel ≤ maxDepth + 1 →
      reachableWithinB g k startId nodeId = true →
      (∀ n ∈ st.2, reachableWithinB g maxDepth startId n.id = true) →
      ∀ n ∈ (frDfs g fuel nodeId st).2,
        reachableWithinB g maxDepth startId n.id = true := by
  intro fuel
  induction fuel with
  | zero => intro nodeId k st _ _ hst; exact hst
  | succ fuel ih =>
    intro nodeId k st hfuel hreach hst
    obtain ⟨visited, reachable⟩ := st
    rw [frDfs]
    by_cases hv : visited.contains nodeId
    · rw [if_pos hv]; exact hst
    · rw [if_neg hv]
      have hknew : ∀ n ∈ (match g.nodes.find? (fun n => n.id = nodeId) with
          | some node => reachable ++ [node]
          | none => reachable),
          reachableWithinB g maxDepth startId n.id = true := by
        cases hfind : g.nodes.find? (fun n => n.id = nodeId) with
        | none => simpa using hst
        | some node =>
          have hid : node.id = nodeId := by
            have := List.find?_some hfind
            simpa using this
          intro n hn
          rcases List.mem_append.mp hn with hn | hn
          · exact hst n hn
          · have : n = node := by simpa using hn
            subst this
            rw [hid]
            exact reachableWithinB_mono g (by omega) hreach
      have hfold : ∀ (l : List CallGraphEdge),
          (∀ e ∈ l, e ∈ g.edges ∧ e.fromId = nodeId) →
          ∀ (acc : List String × List CallGraphNode),
            (∀ n ∈ acc.2, reachableWithinB g maxDepth startId n.id = true) →
            ∀ n ∈ (l.foldl (fun st e => frDfs g fuel e.toId st) acc).2,
              reachableWithinB g maxDepth startId n.id = true := by
        intro l
        induction l with
        | nil => intro _ acc hacc; exact hacc
        | cons e l ihl =>
          intro hl acc hacc
          rw [List.foldl_cons]
          refine ihl (fun e' he' => hl e' (List.mem_cons_of_mem e he')) _ ?_
          refine ih e.toId (k + 1) acc (by omega) ?_ hacc
          exact reachableWithinB_step g hreach e (hl e (List.mem_cons_self e l)).1
            (hl e (List.mem_cons_self e l)).2
      refine hfold _ (fun e he => ?_) _ hknew
      have := List.mem_filter.mp he
      exact ⟨this.1, by simpa using this.2⟩

/-! ### Claim C7 — `findReachableNodes` -/

/-- The concrete graph refuting C7: `E` is reachable from `A` in 2 hops via
    `A → D → E`, but the DFS first reaches `D` at depth 2 via `A → B → D`
    (cutting off `E` by the depth bound) and the *global* visited set then
    prevents re-expanding `D` via the shorter path `A → D`. -/
def c7Node (i : String) : CallGraphNode :=
  { id := i, name := i, type := .service, filePath := "", lineNumber := 1,
    metadata := {} }

def c7Edge (f t : String) : CallGraphEdge :=
  { fromId := f, toId := t, type := .calls, metadata := {} }

def gC7 : CallGraph :=
  { nodes := [c7Node "A", c7Node "B", c7Node "D", c7Node "E"],
    edges := [c7Edge "A" "B", c7Edge "B" "D", c7Edge "D" "E", c7Edge "A" "D"],
    rootNodes := ["A"] }

/-- **C7 counterexample.** In `gC7` with `maxDepth = 2`, node `E` is
    reachable from `A` within 2 hops, yet `findReachableNodes` returns only
    `A, B, D` — the claim that it returns *exactly* the nodes reachable
    within the bound, revisiting nodes reached via different paths, is false:
    the implementation keeps one global visited set. -/
theorem c7_counterexample :
    reachableWithinB gC7 2 "A" "E" = true
    ∧ (findReachableNodes gC7 "A" 2).map (fun n => n.id) = ["A", "B", "D"] := by
  exact ⟨by decide, by decide⟩

/-- **C7 amended.** `findReachableNodes` is *sound* for the bound: every node
    it returns is reachable from the start node within `maxDepth` hops along
    outgoing edges. (It is not complete: a node already in the build-wide
    visited set is never revisited, even via a shorter different path, so
    nodes reachable within the bound can be missed — see the
    counterexample.) -/
theorem c7_reachable_sound (g : CallGraph) (startId : String) (maxDepth : Nat)
    (n : CallGraphNode) (h : n ∈ findReachableNodes g startId maxDepth) :
    reachableWithinB g maxDepth startId n.id = true := by
  refine frDfs_sound g startId maxDepth (maxDepth + 1) startId 0 ([], []) (by omega)
    (reachableWithinB_refl g 0 startId) (by simp) n ?_
  simpa [findReachableNodes] using h

/-- Witness for C7's amended theorem at the concrete graph. -/
theorem c7_reachable_sound_witness :
    reachableWithinB gC7 2 "A" (c7Node "D").id = true := by
  exact c7_reachable_sound gC7 "A" 2 (c7Node "D") (by decide)

/-! ### Well-formedness of the builder state

Every entry of the node cache stores a node under its own id, and no node
created by the builder carries the demo-data tag. Both facts hold for the
empty state `buildCallGraph` starts from and are preserved by every
operation; they let the build-level theorems read node ids off the cache. -/

def CacheWF (st : ParserState) : Prop :=
  ∀ pr ∈ st.nodeCache, pr.2.id = pr.1 ∧ pr.2.metadata.isDemoData = none

theorem cacheFetchOrCreate_wf (st : ParserState) (nodeId : String)
    (node : CallGraphNode) (hid : node.id = nodeId)
    (hdemo : node.metadata.isDemoData = none) (hwf : CacheWF st) :
    (cacheFetchOrCreate st nodeId node).1.id = nodeId
    ∧ (cacheFetchOrCreate st nodeId node).1.metadata.isDemoData = none
    ∧ CacheWF (cacheFetchOrCreate st nodeId node).2
    ∧ (cacheFetchOrCreate st nodeId node).2.processedFiles = st.processedFiles := by
  rw [cacheFetchOrCreate]
  cases hget : cacheGet st nodeId with
  | some n =>
    rcases hfind : st.nodeCache.find? (fun pr => pr.1 = nodeId) with _ | ⟨pr⟩
    · rw [cacheGet, hfind] at hget; simp at hget
    · rw [cacheGet, hfind] at hget
      simp at hget
      have hmem := List.mem_of_find?_eq_some hfind
      have hkey : pr.1 = nodeId := by simpa using List.find?_some hfind
      have hwfpr := hwf pr hmem
      refine ⟨?_, ?_, hwf, rfl⟩
      · rw [← hget, ← hkey]; exact hwfpr.1
      · rw [← hget]; exact hwfpr.2
  | none =>
    refine ⟨hid, hdemo, ?_, rfl⟩
    intro pr hpr
    rcases List.mem_append.mp hpr with h | h
    · exact hwf pr h
    · have : pr = (nodeId, node) := by simpa using h
      subst this
      exact ⟨hid, hdemo⟩

theorem createEndpointNode_wf (st : ParserState) (e : EndpointInfo) (hwf : CacheWF st) :
    (createEndpointNode st e).1.id = endpointNodeId e
    ∧ (createEndpointNode st e).1.metadata.isDemoData = none
    ∧ CacheWF (createEndpointNode st e).2
    ∧ (createEndpointNode st e).2.processedFiles = st.processedFiles :=
  cacheFetchOrCreate_wf st _ _ rfl rfl hwf

theorem createServiceNode_wf (st : ParserState) (dependency : DependencyInfo)
    (filePath : String) (nodeType : NodeType) (hwf : CacheWF st) :
    (createServiceNode st dependency filePath nodeType).1.id
        = getServiceNodeId dependency.serviceName filePath
    ∧ (createServiceNode st dependency filePath nodeType).1.metadata.isDemoData = none
    ∧ CacheWF (createServiceNode st dependency filePath nodeType).2
    ∧ (createServiceNode st dependency filePath nodeType).2.processedFiles
        = st.processedFiles :=
  cacheFetchOrCreate_wf st _ _ rfl rfl hwf

theorem createRepositoryNode_wf (st : ParserState) (dependency : DependencyInfo)
    (filePath : String) (hwf : CacheWF st) :
    (createRepositoryNode st dependency filePath).1.id
        = "repository:" ++ dependency.serviceName ++ ":" ++ filePath
    ∧ (createRepositoryNode st dependency filePath).1.metadata.isDemoData = none
    ∧ CacheWF (createRepositoryNode st dependency filePath).2
    ∧ (createRepositoryNode st dependency filePath).2.processedFiles
        = st.processedFiles :=
  cacheFetchOrCreate_wf st _ _ rfl rfl hwf

theorem createEntityNode_wf (st : ParserState) (entityName filePath : String)
    (hwf : CacheWF st) :
    (createEntityNode st entityName filePath).1.id
        = "entity:" ++ entityName ++ ":" ++ filePath
    ∧ (createEntityNode st entityName filePath).1.metadata.isDemoData = none
    ∧ CacheWF (createEntityNode st entityName filePath).2
    ∧ (createEntityNode st entityName filePath).2.processedFiles
        = st.processedFiles :=
  cacheFetchOrCreate_wf st _ _ rfl rfl hwf

theorem createGuardNode_wf (st : ParserState) (guardName filePath : String)
    (hwf : CacheWF st) :
    (createGuardNode st guardName filePath).1.id
        = "guard:" ++ guardName ++ ":" ++ filePath
    ∧ (createGuardNode st guardName filePath).1.metadata.isDemoData = none
    ∧ CacheWF (createGuardNode st guardName filePath).2
    ∧ (createGuardNode st guardName filePath).2.processedFiles = st.processedFiles :=
  cacheFetchOrCreate_wf st _ _ rfl rfl hwf

theorem createPipeNode_wf (st : ParserState) (pipeName filePath : String)
    (hwf : CacheWF st) :
    (createPipeNode st pipeName filePath).1.id
        = "pipe:" ++ pipeName ++ ":" ++ filePath
    ∧ (createPipeNode st pipeName filePath).1.metadata.isDemoData = none
    ∧ CacheWF (createPipeNode st pipeName filePath).2
    ∧ (createPipeNode st pipeName filePath).2.processedFiles = st.processedFiles :=
  cacheFetchOrCreate_wf st _ _ rfl rfl hwf

theorem createInterceptorNode_wf (st : ParserState) (interceptorName filePath : String)
    (hwf : CacheWF st) :
    (createInterceptorNode st interceptorName filePath).1.id
        = "interceptor:" ++ interceptorName ++ ":" ++ filePath
    ∧ (createInterceptorNode st interceptorName filePath).1.metadata.isDemoData = none
    ∧ CacheWF (createInterceptorNode st interceptorName filePath).2
    ∧ (createInterceptorNode st interceptorName filePath).2.processedFiles
        = st.processedFiles :=
  cacheFetchOrCreate_wf st _ _ rfl rfl hwf

theorem processDependency_wf (p : Project) (st : ParserState)
    (dependency : DependencyInfo) (parentNodeId : String) (hwf : CacheWF st) :
    CacheWF (processDependency p st dependency parentNodeId).2
    ∧ (processDependency p st dependency parentNodeId).2.processedFiles
        = st.processedFiles
    ∧ (processDependency p st dependency parentNodeId).1.1.metadata.isDemoData
        = none := by
  have h := createServiceNode_wf st dependency
    (if dependency.serviceType = "service" then
      (findServiceFile p dependency.serviceName).getD ""
     else if dependency.serviceType = "repository" then
      (findRepositoryFile p dependency.serviceName).getD ""
     else "") (nodeTypeOfString dependency.serviceType) hwf
  exact ⟨h.2.2.1, h.2.2.2, h.2.1⟩

theorem entityRelLoop_wf (p : Project) (parentNodeId : String) :
    ∀ (rels : List RelationshipDecl) (st : ParserState), CacheWF st →
      CacheWF (entityRelLoop p parentNodeId rels st).2
      ∧ (entityRelLoop p parentNodeId rels st).2.processedFiles = st.processedFiles
      ∧ ∀ n ∈ (entityRelLoop p parentNodeId rels st).1.nodes,
          n.metadata.isDemoData = none := by
  intro rels
  induction rels with
  | nil => intro st hwf; exact ⟨hwf, rfl, by simp [entityRelLoop]⟩
  | cons rel rels ih =>
    intro st hwf
    simp only [entityRelLoop]
    split
    · rename_i path hfind
      have hc := createEntityNode_wf st rel.targetEntity path hwf
      have hrest := ih (createEntityNode st rel.targetEntity path).2 hc.2.2.1
      refine ⟨hrest.1, hrest.2.1.trans hc.2.2.2, ?_⟩
      intro n hn
      rcases List.mem_cons.mp hn with h | h
      · exact h ▸ hc.2.1
      · exact hrest.2.2 n h
    · exact ih st hwf

theorem traceEntityRelationships_wf (p : Project)
    (entityPath entityName parentNodeId : String) (config : CallGraphConfig)
    (currentDepth : Nat) (st : ParserState) (hwf : CacheWF st) :
    CacheWF (traceEntityRelationships p entityPath entityName parentNodeId config
        currentDepth st).2
    ∧ (traceEntityRelationships p entityPath entityName parentNodeId config
        currentDepth st).2.processedFiles = st.processedFiles
    ∧ ∀ n ∈ (traceEntityRelationships p entityPath entityName parentNodeId config
        currentDepth st).1.nodes, n.metadata.isDemoData = none := by
  rw [traceEntityRelationships]
  split
  · exact ⟨hwf, rfl, by simp⟩
  · split
    · exact ⟨hwf, rfl, by simp⟩
    · split
      · exact ⟨hwf, rfl, by simp⟩
      · exact entityRelLoop_wf p parentNodeId _ st hwf

theorem serviceDepLoop_wf (p : Project) (parentNodeId : String) :
    ∀ (deps : List DependencyInfo) (st : ParserState), CacheWF st →
      CacheWF (serviceDepLoop p parentNodeId deps st).2
      ∧ (serviceDepLoop p parentNodeId deps st).2.processedFiles = st.processedFiles
      ∧ ∀ n ∈ (serviceDepLoop p parentNodeId deps st).1.nodes,
          n.metadata.isDemoData = none := by
  intro deps
  induction deps with
  | nil => intro st hwf; exact ⟨hwf, rfl, by simp [serviceDepLoop]⟩
  | cons dependency deps ih =>
    intro st hwf
    simp only [serviceDepLoop]
    have hpd := processDependency_wf p st dependency parentNodeId hwf
    have hrest := ih (processDependency p st dependency parentNodeId).2 hpd.1
    refine ⟨hrest.1, hrest.2.1.trans hpd.2.1, ?_⟩
    intro n hn
    rcases List.mem_cons.mp hn with h | h
    · exact h ▸ hpd.2.2
    · exact hrest.2.2 n h

theorem entityPartOfRepoDep_wf (p : Project) (config : CallGraphConfig)
    (currentDepth : Nat) (repoNode : CallGraphNode) (repoDependency : DependencyInfo)
    (st : ParserState) (hwf : CacheWF st) :
    CacheWF (entityPartOfRepoDep p config currentDepth repoNode repoDependency st).2
    ∧ (entityPartOfRepoDep p config currentDepth repoNode repoDependency
        st).2.processedFiles = st.processedFiles
    ∧ ∀ n ∈ (entityPartOfRepoDep p config currentDepth repoNode repoDependency
        st).1.nodes, n.metadata.isDemoData = none := by
  simp only [entityPartOfRepoDep]
  split
  · split
    · rename_i token htok
      split
      · rename_i entityPath hef
        have hce := createEntityNode_wf st token entityPath hwf
        have htr := traceEntityRelationships_wf p entityPath token
          (createEntityNode st token entityPath).1.id config (currentDepth + 1)
          (createEntityNode st token entityPath).2 hce.2.2.1
        refine ⟨htr.1, htr.2.1.trans hce.2.2.2, ?_⟩
        intro n hn
        rcases List.mem_cons.mp hn with h | h
        · exact h ▸ hce.2.1
        · exact htr.2.2 n h
      · exact ⟨hwf, rfl, by simp⟩
    · exact ⟨hwf, rfl, by simp⟩
  · exact ⟨hwf, rfl, by simp⟩

theorem repoDepLoop_wf (p : Project) (servicePath parentNodeId : String)
    (config : CallGraphConfig) (currentDepth : Nat) :
    ∀ (deps : List DependencyInfo) (st : ParserState), CacheWF st →
      CacheWF (repoDepLoop p servicePath parentNodeId config currentDepth deps st).2
      ∧ (repoDepLoop p servicePath parentNodeId config currentDepth deps
          st).2.processedFiles = st.processedFiles
      ∧ ∀ n ∈ (repoDepLoop p servicePath parentNodeId config currentDepth deps
          st).1.nodes, n.metadata.isDemoData = none := by
  intro deps
  induction deps with
  | nil => intro st hwf; exact ⟨hwf, rfl, by simp [repoDepLoop]⟩
  | cons repoDependency deps ih =>
    intro st hwf
    simp only [repoDepLoop]
    have hcr := createRepositoryNode_wf st repoDependency servicePath hwf
    have hep := entityPartOfRepoDep_wf p config currentDepth
      (createRepositoryNode st repoDependency servicePath).1 repoDependency
      (createRepositoryNode st repoDependency servicePath).2 hcr.2.2.1
    have hrest := ih (entityPartOfRepoDep p config currentDepth
      (createRepositoryNode st repoDependency servicePath).1 repoDependency
      (createRepositoryNode st repoDependency servicePath).2).2 hep.1
    refine ⟨hrest.1, (hrest.2.1.trans hep.2.1).trans hcr.2.2.2, ?_⟩
    intro n hn
    rcases List.mem_cons.mp hn with h | h
    · exact h ▸ hcr.2.1
    · rcases List.mem_append.mp h with h | h
      · exact hep.2.2 n h
      · exact hrest.2.2 n h

theorem traceServiceDependencies_wf (p : Project)
    (servicePath serviceName parentNodeId : String) (config : CallGraphConfig)
    (currentDepth : Nat) (st : ParserState) (hwf : CacheWF st) :
    CacheWF (traceServiceDependencies p servicePath serviceName parentNodeId config
        currentDepth st).2
    ∧ st.processedFiles ⊆ (traceServiceDependencies p servicePath serviceName
        parentNodeId config currentDepth st).2.processedFiles
    ∧ ∀ n ∈ (traceServiceDependencies p servicePath serviceName parentNodeId config
        currentDepth st).1.nodes, n.metadata.isDemoData = none := by
  rw [traceServiceDependencies]
  split
  · exact ⟨hwf, List.Subset.refl _, by simp⟩
  · have hsub : st.processedFiles ⊆ st.processedFiles ++ [servicePath] :=
      List.subset_append_left _ _
    split
    · exact ⟨hwf, hsub, by simp⟩
    · split
      · exact ⟨hwf, hsub, by simp⟩
      · rename_i sourceFile hsf serviceClass hcls
        have hreg := serviceDepLoop_wf p parentNodeId
          (extractConstructorDependencies serviceClass)
          { st with processedFiles := st.processedFiles ++ [servicePath] } hwf
        have hrepo := repoDepLoop_wf p servicePath parentNodeId config currentDepth
          (extractRepositoryDependencies serviceClass)
          (serviceDepLoop p parentNodeId (extractConstructorDependencies serviceClass)
            { st with processedFiles := st.processedFiles ++ [servicePath] }).2 hreg.1
        refine ⟨hrepo.1, ?_, ?_⟩
        · intro x hx
          rw [hrepo.2.1, hreg.2.1]
          exact hsub hx
        · intro n hn
          rcases List.mem_append.mp hn with h | h
          · exact hreg.2.2 n h
          · exact hrepo.2.2 n h

theorem attachNamedLoop_wf
    (create : ParserState → String → String → CallGraphNode × ParserState)
    (edgeType : EdgeType) (filePath parentNodeId : String)
    (hcreate : ∀ (st : ParserState) (name : String), CacheWF st →
      (create st name filePath).1.metadata.isDemoData = none
      ∧ CacheWF (create st name filePath).2
      ∧ (create st name filePath).2.processedFiles = st.processedFiles) :
    ∀ (names : List String) (st : ParserState), CacheWF st →
      CacheWF (attachNamedLoop create edgeType filePath parentNodeId names st).2
      ∧ (attachNamedLoop create edgeType filePath parentNodeId names
          st).2.processedFiles = st.processedFiles
      ∧ ∀ n ∈ (attachNamedLoop create edgeType filePath parentNodeId names st).1.nodes,
          n.metadata.isDemoData = none := by
  intro names
  induction names with
  | nil => intro st hwf; exact ⟨hwf, rfl, by simp [attachNamedLoop]⟩
  | cons name names ih =>
    intro st hwf
    simp only [attachNamedLoop]
    have hc := hcreate st name hwf
    have hrest := ih (create st name filePath).2 hc.2.1
    refine ⟨hrest.1, hrest.2.1.trans hc.2.2, ?_⟩
    intro n hn
    rcases List.mem_cons.mp hn with h | h
    · exact h ▸ hc.1
    · exact hrest.2.2 n h

theorem attachIf_wf (flag : Bool)
    (create : ParserState → String → String → CallGraphNode × ParserState)
    (edgeType : EdgeType) (filePath parentNodeId : String)
    (hcreate : ∀ (st : ParserState) (name : String), CacheWF st →
      (create st name filePath).1.metadata.isDemoData = none
      ∧ CacheWF (create st name filePath).2
      ∧ (create st name filePath).2.processedFiles = st.processedFiles)
    (names : List String) (st : ParserState) (hwf : CacheWF st) :
    CacheWF (attachIf flag create edgeType filePath parentNodeId names st).2
    ∧ (attachIf flag create edgeType filePath parentNodeId names
        st).2.processedFiles = st.processedFiles
    ∧ ∀ n ∈ (attachIf flag create edgeType filePath parentNodeId names st).1.nodes,
        n.metadata.isDemoData = none := by
  rw [attachIf]
  split
  · exact attachNamedLoop_wf create edgeType filePath parentNodeId hcreate names st hwf
  · exact ⟨hwf, rfl, by simp⟩

theorem createGuardNode_hcreate (filePath : String) :
    ∀ (st : ParserState) (name : String), CacheWF st →
      (createGuardNode st name filePath).1.metadata.isDemoData = none
      ∧ CacheWF (createGuardNode st name filePath).2
      ∧ (createGuardNode st name filePath).2.processedFiles = st.processedFiles :=
  fun st name h =>
    ⟨(createGuardNode_wf st name filePath h).2.1,
     (createGuardNode_wf st name filePath h).2.2.1,
     (createGuardNode_wf st name filePath h).2.2.2⟩

theorem createPipeNode_hcreate (filePath : String) :
    ∀ (st : ParserState) (name : String), CacheWF st →
      (createPipeNode st name filePath).1.metadata.isDemoData = none
      ∧ CacheWF (createPipeNode st name filePath).2
      ∧ (createPipeNode st name filePath).2.processedFiles = st.processedFiles :=
  fun st name h =>
    ⟨(createPipeNode_wf st name filePath h).2.1,
     (createPipeNode_wf st name filePath h).2.2.1,
     (createPipeNode_wf st name filePath h).2.2.2⟩

theorem createInterceptorNode_hcreate (filePath : String) :
    ∀ (st : ParserState) (name : String), CacheWF st →
      (createInterceptorNode st name filePath).1.metadata.isDemoData = none
      ∧ CacheWF (createInterceptorNode st name filePath).2
      ∧ (createInterceptorNode st name filePath).2.processedFiles = st.processedFiles :=
  fun st name h =>
    ⟨(createInterceptorNode_wf st name filePath h).2.1,
     (createInterceptorNode_wf st name filePath h).2.2.1,
     (createInterceptorNode_wf st name filePath h).2.2.2⟩

theorem endpointDepLoop_wf (p : Project) (parentNodeId : String)
    (config : CallGraphConfig) (currentDepth : Nat) :
    ∀ (deps : List DependencyInfo) (st : ParserState), CacheWF st →
      CacheWF (endpointDepLoop p parentNodeId config currentDepth deps st).2
      ∧ st.processedFiles ⊆ (endpointDepLoop p parentNodeId config currentDepth deps
          st).2.processedFiles
      ∧ ∀ n ∈ (endpointDepLoop p parentNodeId config currentDepth deps st).1.nodes,
          n.metadata.isDemoData = none := by
  intro deps
  induction deps with
  | nil => intro st hwf; exact ⟨hwf, List.Subset.refl _, by simp [endpointDepLoop]⟩
  | cons dependency deps ih =>
    intro st hwf
    simp only [endpointDepLoop]
    have hpd := processDependency_wf p st dependency parentNodeId hwf
    have hsub : ∀ (res : TraceResult × ParserState),
        (CacheWF res.2 ∧
          (processDependency p st dependency parentNodeId).2.processedFiles ⊆
            res.2.processedFiles ∧
          ∀ n ∈ res.1.nodes, n.metadata.isDemoData = none) →
        CacheWF (endpointDepLoop p parentNodeId config currentDepth deps res.2).2
        ∧ st.processedFiles ⊆ (endpointDepLoop p parentNodeId config currentDepth deps
            res.2).2.processedFiles
        ∧ ∀ n ∈ (⟨(processDependency p st dependency parentNodeId).1.1 ::
              (res.1.nodes ++
                (endpointDepLoop p parentNodeId config currentDepth deps
                  res.2).1.nodes), []⟩ : TraceResult).nodes,
            n.metadata.isDemoData = none := by
      intro res hres
      have hrest := ih res.2 hres.1
      refine ⟨hrest.1, ?_, ?_⟩
      · intro x hx
        exact hrest.2.1 (hres.2.1 (hpd.2.1 ▸ hx))
      · intro n hn
        rcases List.mem_cons.mp hn with h | h
        · exact h ▸ hpd.2.2
        · rcases List.mem_append.mp h with h | h
          · exact hres.2.2 n h
          · exact hrest.2.2 n h
    split
    · split
      · rename_i servicePath hfind
        split
        · have htr := traceServiceDependencies_wf p servicePath dependency.serviceName
            (processDependency p st dependency parentNodeId).1.1.id config
            (currentDepth + 1) (processDependency p st dependency parentNodeId).2 hpd.1
          exact hsub _ ⟨htr.1, htr.2.1, htr.2.2⟩
        · exact hsub _ ⟨hpd.1, List.Subset.refl _, by simp⟩
      · exact hsub _ ⟨hpd.1, List.Subset.refl _, by simp⟩
    · exact hsub _ ⟨hpd.1, List.Subset.refl _, by simp⟩

theorem traceEndpointDependencies_wf (p : Project) (endpoint : EndpointInfo)
    (parentNodeId : String) (config : CallGraphConfig) (currentDepth : Nat)
    (st : ParserState) (hwf : CacheWF st) :
    CacheWF (traceEndpointDependencies p endpoint parentNodeId config currentDepth
        st).2
    ∧ st.processedFiles ⊆ (traceEndpointDependencies p endpoint parentNodeId config
        currentDepth st).2.processedFiles
    ∧ ∀ n ∈ (traceEndpointDependencies p endpoint parentNodeId config currentDepth
        st).1.nodes, n.metadata.isDemoData = none := by
  rw [traceEndpointDependencies]
  split
  · exact ⟨hwf, List.Subset.refl _, by simp⟩
  · split
    · exact ⟨hwf, List.Subset.refl _, by simp⟩
    · split
      · exact ⟨hwf, List.Subset.refl _, by simp⟩
      · have hsub0 : st.processedFiles ⊆ st.processedFiles ++ [endpoint.filePath] :=
          List.subset_append_left _ _
        split
        · exact ⟨hwf, hsub0, by simp⟩
        · rename_i sourceFile hsf hproc controllerClass hcls
          have hdeps := endpointDepLoop_wf p parentNodeId config currentDepth
            (extractConstructorDependencies controllerClass)
            { st with processedFiles := st.processedFiles ++ [endpoint.filePath] } hwf
          have hg := attachIf_wf config.includeGuards createGuardNode .guards
            endpoint.filePath parentNodeId
            (createGuardNode_hcreate endpoint.filePath) endpoint.guards
            (endpointDepLoop p parentNodeId config currentDepth
              (extractConstructorDependencies controllerClass)
              { st with processedFiles := st.processedFiles ++ [endpoint.filePath] }).2
            hdeps.1
          have hpi := attachIf_wf config.includePipes createPipeNode .pipes
            endpoint.filePath parentNodeId
            (createPipeNode_hcreate endpoint.filePath) endpoint.pipes
            (attachIf config.includeGuards createGuardNode .guards endpoint.filePath
              parentNodeId endpoint.guards
              (endpointDepLoop p parentNodeId config currentDepth
                (extractConstructorDependencies controllerClass)
                { st with processedFiles :=
                    st.processedFiles ++ [endpoint.filePath] }).2).2
            hg.1
          have hin := attachIf_wf config.includeInterceptors createInterceptorNode
            .intercepts endpoint.filePath parentNodeId
            (createInterceptorNode_hcreate endpoint.filePath) endpoint.interceptors
            (attachIf config.includePipes createPipeNode .pipes endpoint.filePath
              parentNodeId endpoint.pipes
              (attachIf config.includeGuards createGuardNode .guards endpoint.filePath
                parentNodeId endpoint.guards
                (endpointDepLoop p parentNodeId config currentDepth
                  (extractConstructorDependencies controllerClass)
                  { st with processedFiles :=
                      st.processedFiles ++ [endpoint.filePath] }).2).2).2
            hpi.1
          refine ⟨hin.1, ?_, ?_⟩
          · intro x hx
            rw [hin.2.1, hpi.2.1, hg.2.1]
            exact hdeps.2.1 (hsub0 hx)
          · intro n hn
            rcases List.mem_append.mp hn with h | h
            · rcases List.mem_append.mp h with h | h
              · rcases List.mem_append.mp h with h | h
                · exact hdeps.2.2 n h
                · exact hg.2.2 n h
              · exact hpi.2.2 n h
            · exact hin.2.2 n h

theorem buildLoop_wf (p : Project) (config : CallGraphConfig) :
    ∀ (endpoints : List EndpointInfo) (st : ParserState), CacheWF st →
      CacheWF (buildLoop p config endpoints st).2
      ∧ (buildLoop p config endpoints st).1.2 = endpoints.map endpointNodeId
      ∧ (∀ n ∈ (buildLoop p config endpoints st).1.1.nodes,
          n.metadata.isDemoData = none)
      ∧ ∀ ep ∈ endpoints, ∃ n ∈ (buildLoop p config endpoints st).1.1.nodes,
          n.id = endpointNodeId ep := by
  intro endpoints
  induction endpoints with
  | nil => intro st hwf; exact ⟨hwf, rfl, by simp [buildLoop], by simp⟩
  | cons endpoint endpoints ih =>
    intro st hwf
    simp only [buildLoop]
    have hce := createEndpointNode_wf st endpoint hwf
    have htr := traceEndpointDependencies_wf p endpoint
      (createEndpointNode st endpoint).1.id config 0 (createEndpointNode st endpoint).2
      hce.2.2.1
    have hrest := ih
      (traceEndpointDependencies p endpoint (createEndpointNode st endpoint).1.id
        config 0 (createEndpointNode st endpoint).2).2 htr.1
    refine ⟨hrest.1, ?_, ?_, ?_⟩
    · simp only [List.map_cons]
      exact congrArg₂ (· :: ·) hce.1 hrest.2.1
    · intro n hn
      rcases List.mem_cons.mp hn with h | h
      · exact h ▸ hce.2.1
      · rcases List.mem_append.mp h with h | h
        · exact htr.2.2 n h
        · exact hrest.2.2.1 n h
    · intro ep hep
      rcases List.mem_cons.mp hep with h | h
      · exact ⟨(createEndpointNode st endpoint).1, List.mem_cons_self _ _,
          by rw [hce.1, h]⟩
      · obtain ⟨n, hn, hid⟩ := hrest.2.2.2 ep h
        exact ⟨n, List.mem_cons_of_mem _ (List.mem_append.mpr (Or.inr hn)), hid⟩

/-! ### Claim C2 — unresolvable dependency degradation -/

/-- When no class anywhere in the project matches a service name (under the
    resolver's three comparison rules), both passes of `findServiceFile`
    return `none`. -/
theorem findServiceFile_none (p : Project) (serviceName : String)
    (hnm : ∀ f ∈ p.files, ∀ cls ∈ f.classes,
      classNameMatchesService cls.name serviceName = false) :
    findServiceFile p serviceName = none := by
  have hany : ∀ f ∈ p.files,
      f.classes.any (fun cls => classNameMatchesService cls.name serviceName)
        = false := by
    intro f hf
    rw [List.any_eq_false]
    intro cls hcls
    simp [hnm f hf cls hcls]
  rw [findServiceFile]
  have h1 : findServiceFilePass1 p serviceName = none := by
    rw [findServiceFilePass1, List.findSome?_eq_none_iff]
    intro f hf
    simp only
    split
    · simp [hany f hf]
    · rfl
  have h2 : findServiceFilePass2 p serviceName = none := by
    rw [findServiceFilePass2, List.findSome?_eq_none_iff]
    intro f hf
    simp [hany f hf]
  rw [h1, h2]

/-- **C2.** If a constructor-injected type name has no matching source file
    anywhere in the search roots (no loaded class matches it under the
    resolver's comparison rules), then `findServiceFile` returns `null`
    rather than throwing (the embedding is total), and `buildCallGraph`
    still returns a graph containing every endpoint's node — in particular
    the affected endpoint's — without throwing. -/
theorem c2_unresolvable_degradation (p : Project) (st : ParserState)
    (endpoints : List EndpointInfo) (config : CallGraphConfig)
    (serviceName : String)
    (hnm : ∀ f ∈ p.files, ∀ cls ∈ f.classes,
      classNameMatchesService cls.name serviceName = false) :
    findServiceFile p serviceName = none
    ∧ ∀ ep ∈ endpoints, ∃ n ∈ (buildCallGraph p st endpoints config).nodes,
        n.id = endpointNodeId ep := by
  refine ⟨findServiceFile_none p serviceName hnm, ?_⟩
  intro ep hep
  have hwf0 : CacheWF { nodeCache := [], processedFiles := [] } := by
    intro pr hpr; simp at hpr
  obtain ⟨n, hn, hid⟩ :=
    (buildLoop_wf p config endpoints { nodeCache := [], processedFiles := [] }
      hwf0).2.2.2 ep hep
  have hcov : ∃ m ∈ dedupBy (fun n : CallGraphNode => n.id)
      (buildLoop p config endpoints
        { nodeCache := [], processedFiles := [] }).1.1.nodes [],
      m.id = n.id :=
    exists_mem_dedupBy_of_mem (fun n : CallGraphNode => n.id) hn (by simp)
  obtain ⟨m, hm, hkey⟩ := hcov
  exact ⟨m, hm, hkey.trans hid⟩

/-- Concrete project for C2's witness: a controller injecting
    `MissingService`, for which no class exists anywhere. -/
def pC2 : Project :=
  { files :=
    [{ filePath := "src/orders.controller.ts",
       classes :=
        [{ name := some "OrdersController",
           ctors :=
            [[{ name := "missingService", typeName := some "MissingService",
                decorators := [] }]],
           methods := [], properties := [] }] }] }

def epC2 : EndpointInfo :=
  { method := "GET", path := "/orders", controller := "OrdersController",
    handlerName := "getOrders", filePath := "src/orders.controller.ts",
    lineNumber := 6 }

/-- Witness for C2: `MissingService` resolves to `null` and the built graph
    still contains the endpoint node. -/
theorem c2_unresolvable_degradation_witness :
    findServiceFile pC2 "MissingService" = none
    ∧ ∃ n ∈ (buildCallGraph pC2 { nodeCache := [], processedFiles := [] } [epC2]
        defaultCallGraphConfig).nodes, n.id = endpointNodeId epC2 := by
  have h := c2_unresolvable_degradation pC2 { nodeCache := [], processedFiles := [] }
    [epC2] defaultCallGraphConfig "MissingService"
    (by intro f hf cls hcls
        simp only [pC2, List.mem_singleton] at hf
        subst hf
        simp only [List.mem_singleton] at hcls
        subst hcls
        rfl)
  exact ⟨h.1, h.2 epC2 (by simp)⟩

/-! ### Claim C10 — per-build visited-file rule -/

/-- `traceEndpointDependencies` is a no-op (and leaves the state untouched)
    when the depth budget is exhausted, the endpoint's file is not in the
    project, or the file is already in the visited set. -/
theorem traceEndpointDependencies_skip (p : Project) (endpoint : EndpointInfo)
    (parentNodeId : String) (config : CallGraphConfig) (currentDepth : Nat)
    (st : ParserState)
    (h : config.maxDepth ≤ currentDepth ∨ getSourceFile p endpoint.filePath = none ∨
      endpoint.filePath ∈ st.processedFiles) :
    traceEndpointDependencies p endpoint parentNodeId config currentDepth st
      = (⟨[], []⟩, st) := by
  rw [traceEndpointDependencies]
  split
  · rfl
  · rename_i hd
    split
    · rfl
    · rename_i sourceFile hsf
      split
      · rfl
      · rename_i hc
        exfalso
        rcases h with h0 | h0 | h0
        · exact hd (by omega)
        · rw [h0] at hsf; cases hsf
        · exact hc (by simpa using h0)

/-- After `traceEndpointDependencies` runs at depth 0 on an endpoint, either
    the depth budget was 0, or the endpoint's file is not in the project, or
    that file is in the resulting visited set. -/
theorem traceEndpointDependencies_processed (p : Project) (endpoint : EndpointInfo)
    (parentNodeId : String) (config : CallGraphConfig) (st : ParserState)
    (hwf : CacheWF st) :
    config.maxDepth = 0 ∨ getSourceFile p endpoint.filePath = none ∨
      endpoint.filePath ∈
        (traceEndpointDependencies p endpoint parentNodeId config 0
          st).2.processedFiles := by
  rw [traceEndpointDependencies]
  split
  · rename_i hd
    left; omega
  · split
    · rename_i hsf
      right; left; exact hsf
    · rename_i sourceFile hsf
      right; right
      split
      · rename_i hc
        simpa using hc
      · rename_i hc
        split
        · simp
        · rename_i controllerClass hcls
          have hdeps := endpointDepLoop_wf p parentNodeId config 0
            (extractConstructorDependencies controllerClass)
            { st with processedFiles := st.processedFiles ++ [endpoint.filePath] } hwf
          have hg := attachIf_wf config.includeGuards createGuardNode .guards
            endpoint.filePath parentNodeId
            (createGuardNode_hcreate endpoint.filePath) endpoint.guards
            (endpointDepLoop p parentNodeId config 0
              (extractConstructorDependencies controllerClass)
              { st with processedFiles := st.processedFiles ++ [endpoint.filePath] }).2
            hdeps.1
          have hpi := attachIf_wf config.includePipes createPipeNode .pipes
            endpoint.filePath parentNodeId
            (createPipeNode_hcreate endpoint.filePath) endpoint.pipes
            (attachIf config.includeGuards createGuardNode .guards endpoint.filePath
              parentNodeId endpoint.guards
              (endpointDepLoop p parentNodeId config 0
                (extractConstructorDependencies controllerClass)
                { st with processedFiles :=
                    st.processedFiles ++ [endpoint.filePath] }).2).2
            hg.1
          have hin := attachIf_wf config.includeInterceptors createInterceptorNode
            .intercepts endpoint.filePath parentNodeId
            (createInterceptorNode_hcreate endpoint.filePath) endpoint.interceptors
            (attachIf config.includePipes createPipeNode .pipes endpoint.filePath
              parentNodeId endpoint.pipes
              (attachIf config.includeGuards createGuardNode .guards endpoint.filePath
                parentNodeId endpoint.guards
                (endpointDepLoop p parentNodeId config 0
                  (extractConstructorDependencies controllerClass)
                  { st with processedFiles :=
                      st.processedFiles ++ [endpoint.filePath] }).2).2).2
            hpi.1
          rw [hin.2.1, hpi.2.1, hg.2.1]
          exact hdeps.2.1 (by simp)

/-- **C10.** Within one `buildCallGraph` call each source file is expanded at
    most once: when two endpoints share a source file, the one processed
    second contributes only its endpoint root node. The two-endpoint build
    has exactly the edges of the one-endpoint build, its root list gains only
    the second endpoint's id, every node of the two-endpoint build is (by id)
    a node of the one-endpoint build or the second endpoint's root node, and
    no node of the one-endpoint build is lost. -/
theorem c10_visited_file_rule (p : Project) (st : ParserState)
    (config : CallGraphConfig) (e1 e2 : EndpointInfo)
    (h : e1.filePath = e2.filePath) :
    (buildCallGraph p st [e1, e2] config).edges
        = (buildCallGraph p st [e1] config).edges
    ∧ (buildCallGraph p st [e1, e2] config).rootNodes
        = (buildCallGraph p st [e1] config).rootNodes ++ [endpointNodeId e2]
    ∧ (∀ n ∈ (buildCallGraph p st [e1, e2] config).nodes,
        (∃ m ∈ (buildCallGraph p st [e1] config).nodes, m.id = n.id)
        ∨ n.id = endpointNodeId e2)
    ∧ ∀ n ∈ (buildCallGraph p st [e1] config).nodes,
        ∃ m ∈ (buildCallGraph p st [e1, e2] config).nodes, m.id = n.id := by
  have hwf0 : CacheWF ({ nodeCache := [], processedFiles := [] } : ParserState) := by
    intro pr hpr; simp at hpr
  have hce1 := createEndpointNode_wf { nodeCache := [], processedFiles := [] } e1 hwf0
  have htr1 := traceEndpointDependencies_wf p e1
    (createEndpointNode { nodeCache := [], processedFiles := [] } e1).1.id config 0
    (createEndpointNode { nodeCache := [], processedFiles := [] } e1).2 hce1.2.2.1
  have hce2 := createEndpointNode_wf
    (traceEndpointDependencies p e1
      (createEndpointNode { nodeCache := [], processedFiles := [] } e1).1.id config 0
      (createEndpointNode { nodeCache := [], processedFiles := [] } e1).2).2 e2 htr1.1
  have hproc := traceEndpointDependencies_processed p e1
    (createEndpointNode { nodeCache := [], processedFiles := [] } e1).1.id config
    (createEndpointNode { nodeCache := [], processedFiles := [] } e1).2 hce1.2.2.1
  have hskip : traceEndpointDependencies p e2
      (createEndpointNode
        (traceEndpointDependencies p e1
          (createEndpointNode { nodeCache := [], processedFiles := [] } e1).1.id
          config 0
          (createEndpointNode { nodeCache := [], processedFiles := [] } e1).2).2
        e2).1.id config 0
      (createEndpointNode
        (traceEndpointDependencies p e1
          (createEndpointNode { nodeCache := [], processedFiles := [] } e1).1.id
          config 0
          (createEndpointNode { nodeCache := [], processedFiles := [] } e1).2).2
        e2).2
      = (⟨[], []⟩,
        (createEndpointNode
          (traceEndpointDependencies p e1
            (createEndpointNode { nodeCache := [], processedFiles := [] } e1).1.id
            config 0
            (createEndpointNode { nodeCache := [], processedFiles := [] } e1).2).2
          e2).2) := by
    apply traceEndpointDependencies_skip
    rcases hproc with h0 | h0 | h0
    · left; omega
    · right; left; rw [← h]; exact h0
    · right; right
      rw [hce2.2.2.2, ← h]
      exact h0
  have hg2 : buildCallGraph p st [e1, e2] config
      = { nodes := removeDuplicateNodes
            ((createEndpointNode { nodeCache := [], processedFiles := [] } e1).1 ::
              ((traceEndpointDependencies p e1
                (createEndpointNode { nodeCache := [], processedFiles := [] }
                  e1).1.id config 0
                (createEndpointNode { nodeCache := [], processedFiles := [] }
                  e1).2).1.nodes ++
               [(createEndpointNode
                  (traceEndpointDependencies p e1
                    (createEndpointNode { nodeCache := [], processedFiles := [] }
                      e1).1.id config 0
                    (createEndpointNode { nodeCache := [], processedFiles := [] }
                      e1).2).2 e2).1])),
          edges := removeDuplicateEdges
            (traceEndpointDependencies p e1
              (createEndpointNode { nodeCache := [], processedFiles := [] } e1).1.id
              config 0
              (createEndpointNode { nodeCache := [], processedFiles := [] }
                e1).2).1.edges,
          rootNodes :=
            [(createEndpointNode { nodeCache := [], processedFiles := [] } e1).1.id,
             (createEndpointNode
               (traceEndpointDependencies p e1
                 (createEndpointNode { nodeCache := [], processedFiles := [] }
                   e1).1.id config 0
                 (createEndpointNode { nodeCache := [], processedFiles := [] }
                   e1).2).2 e2).1.id] } := by
    simp only [buildCallGraph, buildLoop, hskip]
    simp
  have hg1 : buildCallGraph p st [e1] config
      = { nodes := removeDuplicateNodes
            ((createEndpointNode { nodeCache := [], processedFiles := [] } e1).1 ::
              (traceEndpointDependencies p e1
                (createEndpointNode { nodeCache := [], processedFiles := [] }
                  e1).1.id config 0
                (createEndpointNode { nodeCache := [], processedFiles := [] }
                  e1).2).1.nodes),
          edges := removeDuplicateEdges
            (traceEndpointDependencies p e1
              (createEndpointNode { nodeCache := [], processedFiles := [] } e1).1.id
              config 0
              (createEndpointNode { nodeCache := [], processedFiles := [] }
                e1).2).1.edges,
          rootNodes :=
            [(createEndpointNode { nodeCache := [], processedFiles := [] }
               e1).1.id] } := by
    simp only [buildCallGraph, buildLoop]
    simp
  rw [hg1, hg2]
  refine ⟨rfl, by simp [hce2.1], ?_, ?_⟩
  · intro n hn
    have hn' := mem_of_mem_dedupBy (fun n : CallGraphNode => n.id) hn
    have hcov : n ∈
        (createEndpointNode { nodeCache := [], processedFiles := [] } e1).1 ::
          (traceEndpointDependencies p e1
            (createEndpointNode { nodeCache := [], processedFiles := [] } e1).1.id
            config 0
            (createEndpointNode { nodeCache := [], processedFiles := [] }
              e1).2).1.nodes →
        ∃ m ∈ dedupBy (fun n : CallGraphNode => n.id)
          ((createEndpointNode { nodeCache := [], processedFiles := [] } e1).1 ::
            (traceEndpointDependencies p e1
              (createEndpointNode { nodeCache := [], processedFiles := [] } e1).1.id
              config 0
              (createEndpointNode { nodeCache := [], processedFiles := [] }
                e1).2).1.nodes) [],
          m.id = n.id := fun hmem =>
      exists_mem_dedupBy_of_mem (fun n : CallGraphNode => n.id) hmem (by simp)
    rcases List.mem_cons.mp hn' with h1 | h1
    · exact Or.inl (hcov (by rw [h1]; exact List.mem_cons_self _ _))
    · rcases List.mem_append.mp h1 with h2 | h2
      · exact Or.inl (hcov (List.mem_cons_of_mem _ h2))
      · have h3 : n = (createEndpointNode
            (traceEndpointDependencies p e1
              (createEndpointNode { nodeCache := [], processedFiles := [] }
                e1).1.id config 0
              (createEndpointNode { nodeCache := [], processedFiles := [] }
                e1).2).2 e2).1 := by simpa using h2
        exact Or.inr (by rw [h3]; exact hce2.1)
  · intro n hn
    have hn' := mem_of_mem_dedupBy (fun n : CallGraphNode => n.id) hn
    have hmem2 : n ∈
        (createEndpointNode { nodeCache := [], processedFiles := [] } e1).1 ::
          ((traceEndpointDependencies p e1
            (createEndpointNode { nodeCache := [], processedFiles := [] } e1).1.id
            config 0
            (createEndpointNode { nodeCache := [], processedFiles := [] }
              e1).2).1.nodes ++
           [(createEndpointNode
              (traceEndpointDependencies p e1
                (createEndpointNode { nodeCache := [], processedFiles := [] }
                  e1).1.id config 0
                (createEndpointNode { nodeCache := [], processedFiles := [] }
                  e1).2).2 e2).1]) := by
      rcases List.mem_cons.mp hn' with h1 | h1
      · rw [h1]; exact List.mem_cons_self _ _
      · exact List.mem_cons_of_mem _ (List.mem_append.mpr (Or.inl h1))
    have hcov : ∃ m ∈ dedupBy (fun n : CallGraphNode => n.id)
        ((createEndpointNode { nodeCache := [], processedFiles := [] } e1).1 ::
          ((traceEndpointDependencies p e1
            (createEndpointNode { nodeCache := [], processedFiles := [] } e1).1.id
            config 0
            (createEndpointNode { nodeCache := [], processedFiles := [] }
              e1).2).1.nodes ++
           [(createEndpointNode
              (traceEndpointDependencies p e1
                (createEndpointNode { nodeCache := [], processedFiles := [] }
                  e1).1.id config 0
                (createEndpointNode { nodeCache := [], processedFiles := [] }
                  e1).2).2 e2).1])) [],
        m.id = n.id :=
      exists_mem_dedupBy_of_mem (fun n : CallGraphNode => n.id) hmem2 (by simp)
    exact hcov

/-- Concrete project for C10's witness: two endpoints declared in the same
    controller file. -/
def pC10 : Project :=
  { files :=
    [{ filePath := "src/pets.controller.ts",
       classes :=
        [{ name := some "PetsController",
           ctors :=
            [[{ name := "petsService", typeName := some "PetsService",
                decorators := [] }]],
           methods :=
            [{ name := "list", callExprs := [] },
             { name := "create", callExprs := [] }],
           properties := [] }] },
     { filePath := "src/pets.service.ts",
       classes :=
        [{ name := some "PetsService", ctors := [], methods := [],
           properties := [] }] }] }

def epC10a : EndpointInfo :=
  { method := "GET", path := "/pets", controller := "PetsController",
    handlerName := "list", filePath := "src/pets.controller.ts", lineNumber := 5 }

def epC10b : EndpointInfo :=
  { method := "POST", path := "/pets", controller := "PetsController",
    handlerName := "create", filePath := "src/pets.controller.ts", lineNumber := 9 }

/-- Witness for C10 at the concrete two-endpoint project. -/
theorem c10_visited_file_rule_witness :
    (buildCallGraph pC10 { nodeCache := [], processedFiles := [] } [epC10a, epC10b]
        defaultCallGraphConfig).edges
      = (buildCallGraph pC10 { nodeCache := [], processedFiles := [] } [epC10a]
          defaultCallGraphConfig).edges
    ∧ (buildCallGraph pC10 { nodeCache := [], processedFiles := [] } [epC10a, epC10b]
        defaultCallGraphConfig).rootNodes
      = (buildCallGraph pC10 { nodeCache := [], processedFiles := [] } [epC10a]
          defaultCallGraphConfig).rootNodes ++ [endpointNodeId epC10b] := by
  have h := c10_visited_file_rule pC10 { nodeCache := [], processedFiles := [] }
    defaultCallGraphConfig epC10a epC10b rfl
  exact ⟨h.1, h.2.1⟩

/-! ### Edge-endpoint invariants of the builder (for claim C5)

`EdgesOkFor edges ids pid` states: every `calls` edge targets an id built
with an empty file path, and every other edge has its source equal to the
parent node id (or among `ids`) and its target among `ids`. The trace
functions produce edge lists satisfying this for their own node lists. -/

def nodeIds (nodes : List CallGraphNode) : List String :=
  nodes.map (fun n => n.id)

def EdgesOkFor (edges : List CallGraphEdge) (ids : List String) (pid : String) :
    Prop :=
  ∀ e ∈ edges,
    (e.type = EdgeType.calls → ∃ s, e.toId = getServiceNodeId s "")
    ∧ (e.type ≠ EdgeType.calls →
        (e.fromId = pid ∨ e.fromId ∈ ids) ∧ e.toId ∈ ids)

theorem edgesOkFor_nil (ids : List String) (pid : String) :
    EdgesOkFor [] ids pid := by
  intro e he; simp at he

theorem edgesOkFor_monoIds {edges : List CallGraphEdge} {ids ids' : List String}
    {pid : String} (hsub : ids ⊆ ids') (h : EdgesOkFor edges ids pid) :
    EdgesOkFor edges ids' pid := by
  intro e he
  refine ⟨(h e he).1, fun hne => ?_⟩
  obtain ⟨hfrom, hto⟩ := (h e he).2 hne
  exact ⟨hfrom.imp id (fun hm => hsub hm), hsub hto⟩

theorem edgesOkFor_shiftPid {edges : List CallGraphEdge} {ids ids' : List String}
    {pid : String} (h : EdgesOkFor edges ids pid) (hpid : pid ∈ ids')
    (hsub : ids ⊆ ids') (pid' : String) : EdgesOkFor edges ids' pid' := by
  intro e he
  refine ⟨(h e he).1, fun hne => ?_⟩
  obtain ⟨hfrom, hto⟩ := (h e he).2 hne
  refine ⟨Or.inr ?_, hsub hto⟩
  rcases hfrom with h0 | h0
  · exact h0 ▸ hpid
  · exact hsub h0

theorem edgesOkFor_append {a b : List CallGraphEdge} {ids : List String}
    {pid : String} (ha : EdgesOkFor a ids pid) (hb : EdgesOkFor b ids pid) :
    EdgesOkFor (a ++ b) ids pid := by
  intro e he
  rcases List.mem_append.mp he with h | h
  · exact ha e h
  · exact hb e h

/-- The components of the edge built by `processDependency`: it is an
    `injects` edge from the parent to the (possibly cached) service node. -/
theorem processDependency_edge_fromId (p : Project) (st : ParserState)
    (dependency : DependencyInfo) (parentNodeId : String) :
    (processDependency p st dependency parentNodeId).1.2.fromId = parentNodeId := rfl

theorem processDependency_edge_toId (p : Project) (st : ParserState)
    (dependency : DependencyInfo) (parentNodeId : String) :
    (processDependency p st dependency parentNodeId).1.2.toId
      = (processDependency p st dependency parentNodeId).1.1.id := rfl

theorem processDependency_edge_type (p : Project) (st : ParserState)
    (dependency : DependencyInfo) (parentNodeId : String) :
    (processDependency p st dependency parentNodeId).1.2.type = EdgeType.injects := rfl

theorem entityRelLoop_edgesOk (p : Project) (parentNodeId : String) :
    ∀ (rels : List RelationshipDecl) (st : ParserState),
      EdgesOkFor (entityRelLoop p parentNodeId rels st).1.edges
        (nodeIds (entityRelLoop p parentNodeId rels st).1.nodes) parentNodeId := by
  intro rels
  induction rels with
  | nil => intro st; exact edgesOkFor_nil _ _
  | cons rel rels ih =>
    intro st
    simp only [entityRelLoop]
    split
    · rename_i path hfind
      intro e he
      rcases List.mem_cons.mp he with h | h
      · subst h
        refine ⟨by simp, fun _ => ⟨Or.inl rfl, ?_⟩⟩
        simp [nodeIds]
      · have := ih (createEntityNode st rel.targetEntity path).2 e h
        refine ⟨this.1, fun hne => ?_⟩
        obtain ⟨hfrom, hto⟩ := this.2 hne
        refine ⟨hfrom.imp id (fun hm => by simp [nodeIds] at hm ⊢; exact Or.inr hm),
          ?_⟩
        simp [nodeIds] at hto ⊢
        exact Or.inr hto
    · exact ih st

theorem traceEntityRelationships_edgesOk (p : Project)
    (entityPath entityName parentNodeId : String) (config : CallGraphConfig)
    (currentDepth : Nat) (st : ParserState) :
    EdgesOkFor (traceEntityRelationships p entityPath entityName parentNodeId config
        currentDepth st).1.edges
      (nodeIds (traceEntityRelationships p entityPath entityName parentNodeId config
        currentDepth st).1.nodes) parentNodeId := by
  rw [traceEntityRelationships]
  split
  · exact edgesOkFor_nil _ _
  · split
    · exact edgesOkFor_nil _ _
    · split
      · exact edgesOkFor_nil _ _
      · exact entityRelLoop_edgesOk p parentNodeId _ st

theorem serviceDepLoop_edgesOk (p : Project) (parentNodeId : String) :
    ∀ (deps : List DependencyInfo) (st : ParserState),
      EdgesOkFor (serviceDepLoop p parentNodeId deps st).1.edges
        (nodeIds (serviceDepLoop p parentNodeId deps st).1.nodes) parentNodeId := by
  intro deps
  induction deps with
  | nil => intro st; exact edgesOkFor_nil _ _
  | cons dependency deps ih =>
    intro st
    simp only [serviceDepLoop]
    intro e he
    rcases List.mem_cons.mp he with h | h
    · subst h
      refine ⟨fun hcalls => absurd
        (processDependency_edge_type p st dependency parentNodeId ▸ hcalls)
        (by decide), fun _ => ⟨Or.inl (processDependency_edge_fromId _ _ _ _), ?_⟩⟩
      exact List.mem_cons.mpr (Or.inl (processDependency_edge_toId _ _ _ _))
    · have := ih (processDependency p st dependency parentNodeId).2 e h
      refine ⟨this.1, fun hne => ?_⟩
      obtain ⟨hfrom, hto⟩ := this.2 hne
      refine ⟨hfrom.imp id (fun hm => by simp [nodeIds] at hm ⊢; exact Or.inr hm), ?_⟩
      simp [nodeIds] at hto ⊢
      exact Or.inr hto

theorem entityPartOfRepoDep_edgesOk (p : Project) (config : CallGraphConfig)
    (currentDepth : Nat) (repoNode : CallGraphNode)
    (repoDependency : DependencyInfo) (st : ParserState) :
    EdgesOkFor (entityPartOfRepoDep p config currentDepth repoNode repoDependency
        st).1.edges
      (nodeIds (entityPartOfRepoDep p config currentDepth repoNode repoDependency
        st).1.nodes) repoNode.id := by
  simp only [entityPartOfRepoDep]
  split
  · split
    · rename_i token htok
      split
      · rename_i entityPath hef
        intro e he
        rcases List.mem_cons.mp he with h | h
        · subst h
          refine ⟨by simp, fun _ => ⟨Or.inl rfl, by simp [nodeIds]⟩⟩
        · have hrel := traceEntityRelationships_edgesOk p entityPath token
            (createEntityNode st token entityPath).1.id config (currentDepth + 1)
            (createEntityNode st token entityPath).2
          have := hrel e h
          refine ⟨this.1, fun hne => ?_⟩
          obtain ⟨hfrom, hto⟩ := this.2 hne
          constructor
          · rcases hfrom with h0 | h0
            · refine Or.inr ?_
              simp [nodeIds, h0]
            · refine Or.inr ?_
              simp [nodeIds] at h0 ⊢
              exact Or.inr h0
          · simp [nodeIds] at hto ⊢
            exact Or.inr hto
      · exact edgesOkFor_nil _ _
    · exact edgesOkFor_nil _ _
  · exact edgesOkFor_nil _ _

theorem repoDepLoop_edgesOk (p : Project) (servicePath parentNodeId : String)
    (config : CallGraphConfig) (currentDepth : Nat) :
    ∀ (deps : List DependencyInfo) (st : ParserState),
      EdgesOkFor (repoDepLoop p servicePath parentNodeId config currentDepth deps
          st).1.edges
        (nodeIds (repoDepLoop p servicePath parentNodeId config currentDepth deps
          st).1.nodes) parentNodeId := by
  intro deps
  induction deps with
  | nil => intro st; exact edgesOkFor_nil _ _
  | cons repoDependency deps ih =>
    intro st
    simp only [repoDepLoop]
    intro e he
    rcases List.mem_cons.mp he with h | h
    · subst h
      refine ⟨by simp, fun _ => ⟨Or.inl rfl, by simp [nodeIds]⟩⟩
    · rcases List.mem_append.mp h with h | h
      · have hep := entityPartOfRepoDep_edgesOk p config currentDepth
          (createRepositoryNode st repoDependency servicePath).1 repoDependency
          (createRepositoryNode st repoDependency servicePath).2
        have := hep e h
        refine ⟨this.1, fun hne => ?_⟩
        obtain ⟨hfrom, hto⟩ := this.2 hne
        constructor
        · rcases hfrom with h0 | h0
          · refine Or.inr ?_; simp [nodeIds, h0]
          · refine Or.inr ?_
            simp [nodeIds] at h0 ⊢
            exact Or.inr (Or.inl h0)
        · simp [nodeIds] at hto ⊢
          exact Or.inr (Or.inl hto)
      · have := ih (entityPartOfRepoDep p config currentDepth
          (createRepositoryNode st repoDependency servicePath).1 repoDependency
          (createRepositoryNode st repoDependency servicePath).2).2 e h
        refine ⟨this.1, fun hne => ?_⟩
        obtain ⟨hfrom, hto⟩ := this.2 hne
        constructor
        · rcases hfrom with h0 | h0
          · exact Or.inl h0
          · refine Or.inr ?_
            simp [nodeIds] at h0 ⊢
            exact Or.inr (Or.inr h0)
        · simp [nodeIds] at hto ⊢
          exact Or.inr (Or.inr hto)

theorem traceServiceDependencies_edgesOk (p : Project)
    (servicePath serviceName parentNodeId : String) (config : CallGraphConfig)
    (currentDepth : Nat) (st : ParserState) :
    EdgesOkFor (traceServiceDependencies p servicePath serviceName parentNodeId
        config currentDepth st).1.edges
      (nodeIds (traceServiceDependencies p servicePath serviceName parentNodeId
        config currentDepth st).1.nodes) parentNodeId := by
  rw [traceServiceDependencies]
  split
  · exact edgesOkFor_nil _ _
  · split
    · exact edgesOkFor_nil _ _
    · split
      · exact edgesOkFor_nil _ _
      · rename_i sourceFile hsf serviceClass hcls
        have hreg := serviceDepLoop_edgesOk p parentNodeId
          (extractConstructorDependencies serviceClass)
          { st with processedFiles := st.processedFiles ++ [servicePath] }
        have hrepo := repoDepLoop_edgesOk p servicePath parentNodeId config
          currentDepth (extractRepositoryDependencies serviceClass)
          (serviceDepLoop p parentNodeId (extractConstructorDependencies serviceClass)
            { st with processedFiles := st.processedFiles ++ [servicePath] }).2
        refine edgesOkFor_append ?_ ?_
        · refine edgesOkFor_monoIds ?_ hreg
          intro x hx
          simp [nodeIds] at hx ⊢
          exact Or.inl hx
        · refine edgesOkFor_monoIds ?_ hrepo
          intro x hx
          simp [nodeIds] at hx ⊢
          exact Or.inr hx

theorem methodCallEdges_edgesOk (dependencies : List DependencyInfo)
    (parentNodeId : String) (handlerMethod : MethodDecl) (ids : List String)
    (pid : String) :
    EdgesOkFor (methodCallEdges dependencies parentNodeId handlerMethod) ids pid := by
  intro e he
  rw [methodCallEdges] at he
  obtain ⟨mc, hmc, hf⟩ := List.mem_filterMap.mp he
  split at hf
  · split at hf
    · rename_i dependency hdep
      injection hf with hx
      subst hx
      exact ⟨fun _ => ⟨dependency.serviceName, rfl⟩, fun hne => absurd rfl hne⟩
    · cases hf
  · cases hf

theorem endpointDepLoop_edgesOk (p : Project) (parentNodeId : String)
    (config : CallGraphConfig) (currentDepth : Nat) :
    ∀ (deps : List DependencyInfo) (st : ParserState),
      EdgesOkFor (endpointDepLoop p parentNodeId config currentDepth deps st).1.edges
        (nodeIds (endpointDepLoop p parentNodeId config currentDepth deps st).1.nodes)
        parentNodeId := by
  intro deps
  induction deps with
  | nil => intro st; exact edgesOkFor_nil _ _
  | cons dependency deps ih =>
    intro st
    simp only [endpointDepLoop]
    have hsub : ∀ (res : TraceResult × ParserState),
        EdgesOkFor res.1.edges (nodeIds res.1.nodes)
          (processDependency p st dependency parentNodeId).1.1.id →
        EdgesOkFor ((processDependency p st dependency parentNodeId).1.2 ::
            (res.1.edges ++
              (endpointDepLoop p parentNodeId config currentDepth deps
                res.2).1.edges))
          (nodeIds ((processDependency p st dependency parentNodeId).1.1 ::
            (res.1.nodes ++
              (endpointDepLoop p parentNodeId config currentDepth deps
                res.2).1.nodes))) parentNodeId := by
      intro res hres e he
      rcases List.mem_cons.mp he with h | h
      · subst h
        refine ⟨fun hcalls => absurd
          (processDependency_edge_type p st dependency parentNodeId ▸ hcalls)
          (by decide), fun _ => ⟨Or.inl (processDependency_edge_fromId _ _ _ _), ?_⟩⟩
        exact List.mem_cons.mpr (Or.inl (processDependency_edge_toId _ _ _ _))
      · rcases List.mem_append.mp h with h2 | h2
        · have := hres e h2
          refine ⟨this.1, fun hne => ?_⟩
          obtain ⟨hfrom, hto⟩ := this.2 hne
          constructor
          · rcases hfrom with h0 | h0
            · refine Or.inr ?_; simp [nodeIds, h0]
            · refine Or.inr ?_
              simp [nodeIds] at h0 ⊢
              exact Or.inr (Or.inl h0)
          · simp [nodeIds] at hto ⊢
            exact Or.inr (Or.inl hto)
        · have := ih res.2 e h2
          refine ⟨this.1, fun hne => ?_⟩
          obtain ⟨hfrom, hto⟩ := this.2 hne
          constructor
          · rcases hfrom with h0 | h0
            · exact Or.inl h0
            · refine Or.inr ?_
              simp [nodeIds] at h0 ⊢
              exact Or.inr (Or.inr h0)
          · simp [nodeIds] at hto ⊢
            exact Or.inr (Or.inr hto)
    split
    · split
      · rename_i servicePath hfind
        split
        · exact hsub _ (traceServiceDependencies_edgesOk p servicePath
            dependency.serviceName
            (processDependency p st dependency parentNodeId).1.1.id config
            (currentDepth + 1) (processDependency p st dependency parentNodeId).2)
        · exact hsub _ (edgesOkFor_nil _ _)
      · exact hsub _ (edgesOkFor_nil _ _)
    · exact hsub _ (edgesOkFor_nil _ _)

theorem attachNamedLoop_edgesOk
    (create : ParserState → String → String → CallGraphNode × ParserState)
    (edgeType : EdgeType) (filePath parentNodeId : String)
    (hnc : edgeType ≠ EdgeType.calls) :
    ∀ (names : List String) (st : ParserState),
      EdgesOkFor (attachNamedLoop create edgeType filePath parentNodeId names
          st).1.edges
        (nodeIds (attachNamedLoop create edgeType filePath parentNodeId names
          st).1.nodes) parentNodeId := by
  intro names
  induction names with
  | nil => intro st; exact edgesOkFor_nil _ _
  | cons name names ih =>
    intro st
    simp only [attachNamedLoop]
    intro e he
    rcases List.mem_cons.mp he with h | h
    · subst h
      exact ⟨fun hcalls => absurd hcalls hnc,
        fun _ => ⟨Or.inl rfl, List.mem_cons.mpr (Or.inl rfl)⟩⟩
    · have := ih (create st name filePath).2 e h
      refine ⟨this.1, fun hne => ?_⟩
      obtain ⟨hfrom, hto⟩ := this.2 hne
      refine ⟨hfrom.imp id (fun hm => by simp [nodeIds] at hm ⊢; exact Or.inr hm), ?_⟩
      simp [nodeIds] at hto ⊢
      exact Or.inr hto

theorem attachIf_edgesOk (flag : Bool)
    (create : ParserState → String → String → CallGraphNode × ParserState)
    (edgeType : EdgeType) (filePath parentNodeId : String)
    (hnc : edgeType ≠ EdgeType.calls) (names : List String) (st : ParserState) :
    EdgesOkFor (attachIf flag create edgeType filePath parentNodeId names st).1.edges
      (nodeIds (attachIf flag create edgeType filePath parentNodeId names st).1.nodes)
      parentNodeId := by
  rw [attachIf]
  split
  · exact attachNamedLoop_edgesOk create edgeType filePath parentNodeId hnc names st
  · exact edgesOkFor_nil _ _

theorem traceEndpointDependencies_edgesOk (p : Project) (endpoint : EndpointInfo)
    (parentNodeId : String) (config : CallGraphConfig) (currentDepth : Nat)
    (st : ParserState) :
    EdgesOkFor (traceEndpointDependencies p endpoint parentNodeId config currentDepth
        st).1.edges
      (nodeIds (traceEndpointDependencies p endpoint parentNodeId config currentDepth
        st).1.nodes) parentNodeId := by
  rw [traceEndpointDependencies]
  split
  · exact edgesOkFor_nil _ _
  · split
    · exact edgesOkFor_nil _ _
    · split
      · exact edgesOkFor_nil _ _
      · split
        · exact edgesOkFor_nil _ _
        · rename_i sourceFile hsf hproc controllerClass hcls
          refine edgesOkFor_append (edgesOkFor_append (edgesOkFor_append
            (edgesOkFor_append ?_ ?_) ?_) ?_) ?_
          · refine edgesOkFor_monoIds ?_ (endpointDepLoop_edgesOk p parentNodeId
              config currentDepth (extractConstructorDependencies controllerClass)
              { st with processedFiles := st.processedFiles ++ [endpoint.filePath] })
            intro x hx
            simp [nodeIds] at hx ⊢
            exact Or.inl hx
          · split
            · exact methodCallEdges_edgesOk _ _ _ _ _
            · exact edgesOkFor_nil _ _
          · refine edgesOkFor_monoIds ?_ (attachIf_edgesOk config.includeGuards
              createGuardNode .guards endpoint.filePath parentNodeId (by decide)
              endpoint.guards _)
            intro x hx
            simp [nodeIds] at hx ⊢
            exact Or.inr (Or.inl hx)
          · refine edgesOkFor_monoIds ?_ (attachIf_edgesOk config.includePipes
              createPipeNode .pipes endpoint.filePath parentNodeId (by decide)
              endpoint.pipes _)
            intro x hx
            simp [nodeIds] at hx ⊢
            exact Or.inr (Or.inr (Or.inl hx))
          · refine edgesOkFor_monoIds ?_ (attachIf_edgesOk config.includeInterceptors
              createInterceptorNode .intercepts endpoint.filePath parentNodeId
              (by decide) endpoint.interceptors _)
            intro x hx
            simp [nodeIds] at hx ⊢
            exact Or.inr (Or.inr (Or.inr hx))

theorem buildLoop_edgesOk (p : Project) (config : CallGraphConfig) :
    ∀ (endpoints : List EndpointInfo) (st : ParserState) (pid : String),
      EdgesOkFor (buildLoop p config endpoints st).1.1.edges
        (nodeIds (buildLoop p config endpoints st).1.1.nodes) pid := by
  intro endpoints
  induction endpoints with
  | nil => intro st pid; exact edgesOkFor_nil _ _
  | cons endpoint endpoints ih =>
    intro st pid
    simp only [buildLoop]
    intro e he
    rcases List.mem_append.mp he with h | h
    · have := traceEndpointDependencies_edgesOk p endpoint
        (createEndpointNode st endpoint).1.id config 0
        (createEndpointNode st endpoint).2 e h
      refine ⟨this.1, fun hne => ?_⟩
      obtain ⟨hfrom, hto⟩ := this.2 hne
      constructor
      · rcases hfrom with h0 | h0
        · refine Or.inr ?_; simp [nodeIds, h0]
        · refine Or.inr ?_
          simp [nodeIds] at h0 ⊢
          exact Or.inr (Or.inl h0)
      · simp [nodeIds] at hto ⊢
        exact Or.inr (Or.inl hto)
    · have := ih (traceEndpointDependencies p endpoint
        (createEndpointNode st endpoint).1.id config 0
        (createEndpointNode st endpoint).2).2 pid e h
      refine ⟨this.1, fun hne => ?_⟩
      obtain ⟨hfrom, hto⟩ := this.2 hne
      constructor
      · rcases hfrom with h0 | h0
        · exact Or.inl h0
        · refine Or.inr ?_
          simp [nodeIds] at h0 ⊢
          exact Or.inr (Or.inr h0)
      · simp [nodeIds] at hto ⊢
        exact Or.inr (Or.inr hto)

/-! ### Claim C5 — edge endpoints in built graphs -/

/-- **C5 amended.** In every built graph, each edge that is not a `calls` edge
    has both of its endpoints among the returned nodes. A `calls` edge always
    targets the id `service:<name>:` formed with an *empty* file path
    (`getServiceNodeId name ""`), so it matches a node only when the
    dependency's file was unresolved; when the file was found the `calls`
    edge dangles (see the counterexample). -/
theorem c5_edge_endpoints (p : Project) (st : ParserState)
    (endpoints : List EndpointInfo) (config : CallGraphConfig) (e : CallGraphEdge)
    (he : e ∈ (buildCallGraph p st endpoints config).edges) :
    (e.type = EdgeType.calls → ∃ s, e.toId = getServiceNodeId s "")
    ∧ (e.type ≠ EdgeType.calls →
        (∃ n ∈ (buildCallGraph p st endpoints config).nodes, n.id = e.fromId)
        ∧ ∃ n ∈ (buildCallGraph p st endpoints config).nodes, n.id = e.toId) := by
  have hepre : e ∈ (buildLoop p config endpoints
      { nodeCache := [], processedFiles := [] }).1.1.edges :=
    mem_of_mem_dedupBy edgeKey he
  have hcov : ∀ x, x ∈ nodeIds (buildLoop p config endpoints
      { nodeCache := [], processedFiles := [] }).1.1.nodes →
      ∃ m ∈ dedupBy (fun n : CallGraphNode => n.id)
        (buildLoop p config endpoints
          { nodeCache := [], processedFiles := [] }).1.1.nodes [],
        m.id = x := by
    intro x hx
    simp only [nodeIds, List.mem_map] at hx
    obtain ⟨n, hn, hid⟩ := hx
    have h' : ∃ m ∈ dedupBy (fun n : CallGraphNode => n.id)
        (buildLoop p config endpoints
          { nodeCache := [], processedFiles := [] }).1.1.nodes [],
        m.id = n.id :=
      exists_mem_dedupBy_of_mem (fun n : CallGraphNode => n.id) hn (by simp)
    obtain ⟨m, hm, hk⟩ := h'
    exact ⟨m, hm, hk.trans hid⟩
  have h1 := buildLoop_edgesOk p config endpoints
    { nodeCache := [], processedFiles := [] } "0" e hepre
  have h2 := buildLoop_edgesOk p config endpoints
    { nodeCache := [], processedFiles := [] } "1" e hepre
  refine ⟨h1.1, fun hne => ?_⟩
  obtain ⟨hfrom1, hto⟩ := h1.2 hne
  obtain ⟨hfrom2, _⟩ := h2.2 hne
  refine ⟨?_, hcov e.toId hto⟩
  rcases hfrom1 with h0 | h0
  · rcases hfrom2 with h0' | h0'
    · rw [h0] at h0'
      exact absurd h0' (by decide)
    · exact hcov e.fromId h0'
  · exact hcov e.fromId h0

/-- Concrete project for C5: the controller's handler calls
    `catsService.findAll()` through a bare identifier that names the
    constructor parameter, and the service's file *is* resolvable. -/
def pC5 : Project :=
  { files :=
    [{ filePath := "src/cats.controller.ts",
       classes :=
        [{ name := some "CatsController",
           ctors :=
            [[{ name := "catsService", typeName := some "CatsService",
                decorators := [] }]],
           methods :=
            [{ name := "findAll",
               callExprs := [.propAccessIdent "catsService" "findAll" 12] }],
           properties := [] }] },
     { filePath := "src/cats.service.ts",
       classes :=
        [{ name := some "CatsService", ctors := [], methods := [],
           properties := [] }] }] }

def epC5 : EndpointInfo :=
  { method := "GET", path := "/cats", controller := "CatsController",
    handlerName := "findAll", filePath := "src/cats.controller.ts",
    lineNumber := 10 }

/-- **C5 counterexample.** In this build the `calls` edge synthesized from
    the handler's `catsService.findAll()` call targets
    `service:CatsService:` (empty file path), while the service node's id is
    `service:CatsService:src/cats.service.ts` — the edge's target matches no
    node in the returned graph, refuting the claim that every edge's
    endpoints are present, in particular for `calls` edges. -/
theorem c5_counterexample :
    ∃ e ∈ (buildCallGraph pC5 { nodeCache := [], processedFiles := [] } [epC5]
        defaultCallGraphConfig).edges,
      e.type = EdgeType.calls
      ∧ ∀ n ∈ (buildCallGraph pC5 { nodeCache := [], processedFiles := [] } [epC5]
          defaultCallGraphConfig).nodes, n.id ≠ e.toId := by
  decide

/-- Witness for C5's amended theorem at the concrete `injects` edge of the
    same build. -/
theorem c5_edge_endpoints_witness :
    (∃ n ∈ (buildCallGraph pC5 { nodeCache := [], processedFiles := [] } [epC5]
        defaultCallGraphConfig).nodes,
      n.id = "endpoint:CatsController:findAll:src/cats.controller.ts:10")
    ∧ ∃ n ∈ (buildCallGraph pC5 { nodeCache := [], processedFiles := [] } [epC5]
        defaultCallGraphConfig).nodes,
      n.id = "service:CatsService:src/cats.service.ts" := by
  exact (c5_edge_endpoints pC5 { nodeCache := [], processedFiles := [] } [epC5]
    defaultCallGraphConfig
    { fromId := "endpoint:CatsController:findAll:src/cats.controller.ts:10",
      toId := "service:CatsService:src/cats.service.ts",
      type := .injects,
      metadata := { parameter := some "catsService" } }
    (by decide)).2 (by decide)

/-! ### Claim C3 — unresolved constructor dependencies -/

/-- Concrete project for C3: the controller injects `GhostService`, and no
    file in the project declares any matching class, so `findServiceFile`
    returns `none`. -/
def pC3 : Project :=
  { files :=
    [{ filePath := "src/ghost.controller.ts",
       classes :=
        [{ name := some "GhostController",
           ctors :=
            [[{ name := "ghost", typeName := some "GhostService",
                decorators := [] }]],
           methods := [{ name := "findAll", callExprs := [] }],
           properties := [] }] }] }

def epC3 : EndpointInfo :=
  { method := "GET", path := "/ghost", controller := "GhostController",
    handlerName := "findAll", filePath := "src/ghost.controller.ts",
    lineNumber := 3 }

/-- **C3 counterexample.** Even though `findServiceFile` returns `none` for
    `GhostService`, the built graph *does* contain a fabricated node for the
    unresolved dependency: id `service:GhostService:` with an empty
    `filePath`. This refutes "does not fabricate a graph node for the
    unresolved dependency". -/
theorem c3_counterexample :
    findServiceFile pC3 "GhostService" = none
    ∧ ∃ n ∈ (buildCallGraph pC3 { nodeCache := [], processedFiles := [] } [epC3]
        defaultCallGraphConfig).nodes,
      n.id = getServiceNodeId "GhostService" "" ∧ n.filePath = "" := by
  decide

/-- **C3 amended.** When the resolver returns `none` for a `service`-typed
    constructor dependency, `processDependency` still creates a node, whose
    id uses the *empty* file path (`service:<name>:`); the branch is not
    expanded further (in the concrete unresolved build the fabricated node
    has no outgoing edges), and the builder itself never produces
    demo-tagged nodes — synthetic (`isDemoData`-tagged) nodes arise only in
    the demo-enrichment fallback. -/
theorem c3_unresolved_dependency :
    (∀ (p : Project) (st : ParserState) (dep : DependencyInfo) (pid : String),
      CacheWF st → dep.serviceType = "service" →
      findServiceFile p dep.serviceName = none →
        (processDependency p st dep pid).1.1.id = getServiceNodeId dep.serviceName "")
    ∧ (∀ (p : Project) (st : ParserState) (endpoints : List EndpointInfo)
        (config : CallGraphConfig) (n : CallGraphNode),
        n ∈ (buildCallGraph p st endpoints config).nodes →
        n.metadata.isDemoData = none)
    ∧ (∀ e ∈ (buildCallGraph pC3 { nodeCache := [], processedFiles := [] } [epC3]
        defaultCallGraphConfig).edges,
        e.fromId ≠ getServiceNodeId "GhostService" "") := by
  refine ⟨?_, ?_, by decide⟩
  · intro p st dep pid hwf hsvc hfind
    have hfp : (if dep.serviceType = "service" then
        (findServiceFile p dep.serviceName).getD ""
        else if dep.serviceType = "repository" then
        (findRepositoryFile p dep.serviceName).getD ""
        else "") = "" := by
      rw [if_pos hsvc, hfind]
      rfl
    simp only [processDependency, hfp]
    exact (createServiceNode_wf st dep "" (nodeTypeOfString dep.serviceType) hwf).1
  · intro p st endpoints config n hn
    have hpre : n ∈ (buildLoop p config endpoints
        { nodeCache := [], processedFiles := [] }).1.1.nodes :=
      mem_of_mem_dedupBy (fun n : CallGraphNode => n.id) hn
    exact (buildLoop_wf p config endpoints
      { nodeCache := [], processedFiles := [] } (by simp [CacheWF])).2.2.1 n hpre

/-- Witness for C3's amended theorem at the concrete unresolved dependency. -/
theorem c3_unresolved_dependency_witness :
    (processDependency pC3 { nodeCache := [], processedFiles := [] }
        { serviceName := "GhostService", serviceType := "service",
          parameterName := "ghost" } "par").1.1.id
      = getServiceNodeId "GhostService" "" :=
  c3_unresolved_dependency.1 pC3 { nodeCache := [], processedFiles := [] }
    { serviceName := "GhostService", serviceType := "service",
      parameterName := "ghost" } "par" (by simp [CacheWF]) rfl (by decide)

/-! ### Claim C1 — demo-data enrichment of small graphs -/

/-- Concrete project for C1's counterexample: the controller has no
    constructor dependencies, so the built graph is the single endpoint
    node — and in particular contains no service node. -/
def pC1 : Project :=
  { files :=
    [{ filePath := "src/empty.controller.ts",
       classes :=
        [{ name := some "EmptyController", ctors := [],
           methods := [{ name := "findAll", callExprs := [] }],
           properties := [] }] }] }

def epC1 : EndpointInfo :=
  { method := "GET", path := "/empty", controller := "EmptyController",
    handlerName := "findAll", filePath := "src/empty.controller.ts",
    lineNumber := 4 }

/-- **C1 counterexample.** This endpoint's built graph has at most 2 nodes
    (exactly one: the endpoint node), yet the public-facing enhanced graph
    contains no repository node at all: `enhanceCallGraphWithDemoData`
    requires the small graph to contain *both* an endpoint node and a
    service node, and returns the graph unchanged otherwise. This refutes
    the claim for every endpoint whose small graph lacks a service node. -/
theorem c1_counterexample :
    (buildEndpointCallGraph pC1 { nodeCache := [], processedFiles := [] }
        epC1).nodes.length ≤ 2
    ∧ ∀ n ∈ (showEnhancedCallGraph pC1 { nodeCache := [], processedFiles := [] }
        epC1).nodes, n.type ≠ NodeType.repository := by
  decide

/-- **C1 amended.** When the graph has at most 2 nodes *and* contains both
    an endpoint node and a service node, enrichment adds a repository node
    tagged `isDemoData = true` and an entity node whose tag equals the
    DTO-inference flag (`false` when the entity name was extracted from the
    endpoint's input/output DTO names, `true` when it fell back to the
    controller name); without both nodes present the graph is returned
    unchanged (see the counterexample). -/
theorem c1_enrichment (g : CallGraph) (ep : EndpointInfo) (ne ns : CallGraphNode)
    (hlen : g.nodes.length ≤ 2)
    (hne : g.nodes.find? (fun n => n.type == NodeType.endpoint) = some ne)
    (hns : g.nodes.find? (fun n => n.type == NodeType.service) = some ns) :
    (∃ n ∈ (enhanceCallGraphWithDemoData g (some ep)).nodes,
        n.type = NodeType.repository ∧ n.metadata.isDemoData = some true)
    ∧ ∃ n ∈ (enhanceCallGraphWithDemoData g (some ep)).nodes,
        n.type = NodeType.entity
        ∧ n.metadata.isDemoData
            = some (inferEntityName ep (removeFirst ep.controller "Controller")).2 := by
  cases hIE : inferEntityName ep (removeFirst ep.controller "Controller") with
  | mk a b =>
  simp only [enhanceCallGraphWithDemoData, hne, hns, if_pos hlen, hIE]
  exact ⟨⟨_, List.mem_append_left _ (List.mem_append_left _ (List.mem_append_left _
      (List.mem_append_left _ (List.mem_append_right _ (List.mem_cons_self _ _))))),
      rfl, rfl⟩,
    ⟨_, List.mem_append_left _ (List.mem_append_left _ (List.mem_append_left _
      (List.mem_append_left _ (List.mem_append_right _
        (List.mem_cons_of_mem _ (List.mem_cons_self _ _)))))),
      rfl, rfl⟩⟩

/-- Witness for C1's amended theorem on a concrete 2-node graph (the build
    of `pC5`'s endpoint: one endpoint node and one service node). -/
theorem c1_enrichment_witness :
    (∃ n ∈ (enhanceCallGraphWithDemoData
        (buildEndpointCallGraph pC5 { nodeCache := [], processedFiles := [] } epC5)
        (some epC5)).nodes,
      n.type = NodeType.repository ∧ n.metadata.isDemoData = some true)
    ∧ ∃ n ∈ (enhanceCallGraphWithDemoData
        (buildEndpointCallGraph pC5 { nodeCache := [], processedFiles := [] } epC5)
        (some epC5)).nodes,
      n.type = NodeType.entity
      ∧ n.metadata.isDemoData
          = some (inferEntityName epC5 (removeFirst epC5.controller "Controller")).2 :=
  c1_enrichment
    (buildEndpointCallGraph pC5 { nodeCache := [], processedFiles := [] } epC5) epC5
    { id := "endpoint:CatsController:findAll:src/cats.controller.ts:10",
      name := "GET /cats", type := .endpoint,
      filePath := "src/cats.controller.ts", lineNumber := 10,
      metadata := { httpMethod := some "GET", route := some "/cats",
                    className := some "CatsController",
                    methodName := some "findAll" } }
    { id := "service:CatsService:src/cats.service.ts",
      name := "CatsService", type := .service,
      filePath := "src/cats.service.ts", lineNumber := 1,
      metadata := { className := some "CatsService" } }
    (by decide) (by decide) (by decide)

/-! ### Claim C6 — mutually dependent services and cycle detection -/

/-- Concrete project for C6's counterexample: `AService` injects `BService`
    and `BService` injects `AService`, but the endpoint's controller
    injects only `AService`. -/
def pC6a : Project :=
  { files :=
    [{ filePath := "src/ab.controller.ts",
       classes :=
        [{ name := some "ABController",
           ctors :=
            [[{ name := "aService", typeName := some "AService",
                decorators := [] }]],
           methods := [{ name := "findAll", callExprs := [] }],
           properties := [] }] },
     { filePath := "src/a.service.ts",
       classes :=
        [{ name := some "AService",
           ctors :=
            [[{ name := "bService", typeName := some "BService",
                decorators := [] }]],
           methods := [], properties := [] }] },
     { filePath := "src/b.service.ts",
       classes :=
        [{ name := some "BService",
           ctors :=
            [[{ name := "aService", typeName := some "AService",
                decorators := [] }]],
           methods := [], properties := [] }] }] }

/-- Same source tree, but the controller injects both services. -/
def pC6b : Project :=
  { files :=
    [{ filePath := "src/ab.controller.ts",
       classes :=
        [{ name := some "ABController",
           ctors :=
            [[{ name := "aService", typeName := some "AService",
                decorators := [] },
              { name := "bService", typeName := some "BService",
                decorators := [] }]],
           methods := [{ name := "findAll", callExprs := [] }],
           properties := [] }] },
     { filePath := "src/a.service.ts",
       classes :=
        [{ name := some "AService",
           ctors :=
            [[{ name := "bService", typeName := some "BService",
                decorators := [] }]],
           methods := [], properties := [] }] },
     { filePath := "src/b.service.ts",
       classes :=
        [{ name := some "BService",
           ctors :=
            [[{ name := "aService", typeName := some "AService",
                decorators := [] }]],
           methods := [], properties := [] }] }] }

def epC6 : EndpointInfo :=
  { method := "GET", path := "/ab", controller := "ABController",
    handlerName := "findAll", filePath := "src/ab.controller.ts",
    lineNumber := 5 }

/-- **C6 counterexample.** In `pC6a` both service files resolve and the two
    services inject each other, yet `detectCircularDependencies` on the
    built graph reports *no* cycle: dependency tracing from the endpoint
    expands service dependencies only one level deep (the edge
    `AService → BService` is added, but `BService`'s own constructor is
    never traced), so the edge `BService → AService` is missing from the
    graph. This refutes the claim as stated for this source tree. -/
theorem c6_counterexample :
    findServiceFile pC6a "AService" = some "src/a.service.ts"
    ∧ findServiceFile pC6a "BService" = some "src/b.service.ts"
    ∧ detectCircularDependencies
        (buildCallGraph pC6a { nodeCache := [], processedFiles := [] } [epC6]
          defaultCallGraphConfig) = [] := by
  decide

/-- **C6 amended.** The build is terminating by construction (the embedding
    is a total function, mirroring the depth bound and the visited-file
    set), and a cycle containing both service node ids *is* reported when
    the one-level expansion reaches both directions of the mutual
    dependency — here because the controller injects both services, so both
    service files are expanded one level and both `injects` edges
    `A → B` and `B → A` enter the graph. -/
theorem c6_cycle_both_injected :
    ∃ c ∈ detectCircularDependencies
        (buildCallGraph pC6b { nodeCache := [], processedFiles := [] } [epC6]
          defaultCallGraphConfig),
      getServiceNodeId "AService" "src/a.service.ts" ∈ c
      ∧ getServiceNodeId "BService" "src/b.service.ts" ∈ c := by
  decide

end NestCG
